import Mathlib

/-!
# Step-synchronised entity simulation (`ConsoleApplication1.cpp`)

A shallow embedding of `Entity`, its constructors, `Entity::move` and the step loop of
`main`, in two readings of the type `double`.

* In the namespace `Sim` coordinates and speeds are real numbers and the arithmetic of the
  source is exact real arithmetic.  The statements proved in this reading are those that
  speak of exact reals or that have a margin no rounding can consume.
* In the namespace `Sim.Ieee` the values are those of binary64, with NaN and the
  infinities, and every operation is rounded.  This reading decides what the code does at
  a concrete state where rounding or NaN matters.

Both readings compare and take square roots of real numbers, so the definitions live in a
`noncomputable section`.  The identifier of the executing thread, which `move` reads from
`this_thread::get_id()`, is an explicit argument.
-/

noncomputable section

namespace Sim

/-- Global setting `SIM_WIDTH`. -/
def SIM_WIDTH : ℝ := 100.0

/-- Global setting `SIM_HEIGHT`. -/
def SIM_HEIGHT : ℝ := 100.0

/-- Data members of `class Entity`. -/
structure Entity where
  x : ℝ
  y : ℝ
  targetX : ℝ
  targetY : ℝ
  speed : ℝ
  isMoving : Bool
  displayName : String
  lastThreadID : String

/-- The local `distance` of `Entity::move`: `sqrt(dx * dx + dy * dy)` with
`dx = targetX - x`, `dy = targetY - y`, in exact real arithmetic: the straight-line
distance to the target. -/
def Entity.distance (e : Entity) : ℝ :=
  Real.sqrt ((e.targetX - e.x) * (e.targetX - e.x) + (e.targetY - e.y) * (e.targetY - e.y))

/-- `Entity::move`, run by the thread whose identifier prints as `tid`, in exact real
arithmetic. -/
def Entity.move (tid : String) (e : Entity) : Entity :=
  let e1 := { e with lastThreadID := tid }
  if !e1.isMoving then e1
  else
    let dx := e1.targetX - e1.x
    let dy := e1.targetY - e1.y
    let distance := Real.sqrt (dx * dx + dy * dy)
    if distance ≤ e1.speed then
      { e1 with x := e1.targetX, y := e1.targetY, isMoving := false }
    else
      let ratio := e1.speed / distance
      { e1 with x := e1.x + dx * ratio, y := e1.y + dy * ratio }

/-- `Entity::getIsMoving`. -/
def Entity.getIsMoving (e : Entity) : Bool := e.isMoving

/-- Repeated calls of `Entity::move` on one entity, one call per listed thread identifier. -/
def Entity.moveN (tids : List String) (e : Entity) : Entity :=
  tids.foldl (fun acc tid => acc.move tid) e

/-- An entity state with the diagnostic `lastThreadID` blanked out. -/
def Entity.eraseThread (e : Entity) : Entity := { e with lastThreadID := "" }

/-- The exception classes derived from `SimulationException`, with their constructor
arguments. -/
inductive SimulationException where
  | outOfBounds (x y : ℝ)
  | physicsParameter (paramName : String) (value : ℝ)

/-- Constructor `Entity::Entity(startX, startY, v, name)` for arguments that are real
numbers, so none of them NaN.  The constructor does not initialise `targetX` and
`targetY`; `tx0` and `ty0` stand for whatever the two members hold. -/
def Entity.new (startX startY v : ℝ) (name : String) (tx0 ty0 : ℝ) :
    Except SimulationException Entity :=
  if v < 0 then .error (.physicsParameter "Speed" v)
  else if startX < 0 ∨ startX > SIM_WIDTH ∨ startY < 0 ∨ startY > SIM_HEIGHT then
    .error (.outOfBounds startX startY)
  else
    .ok { x := startX, y := startY, targetX := tx0, targetY := ty0, speed := v,
          isMoving := true, displayName := name, lastThreadID := "Main" }

/-- The mutation phase of one step with the moves applied one after the other in the
order `order`: slot `i` is replaced by the result of `entities[i]->move()`, run by the
thread `tids i`. -/
def stepInOrder (tids : ℕ → String) (order : List ℕ) (es : List Entity) : List Entity :=
  order.foldl (fun acc i => acc.modify (Entity.move (tids i)) i) es

/-- The mutation phase of one step of `main`: `for (i = 0; i < entities.size(); ++i)` one
worker per slot, all joined before anything is read. -/
def runStep (tids : ℕ → String) (es : List Entity) : List Entity :=
  stepInOrder tids (List.range es.length) es

/-- The read phase of one step: `active = false; for (e : entities) if (e->getIsMoving())
active = true;`. -/
def computeActive (es : List Entity) : Bool :=
  es.foldl (fun active e => if e.getIsMoving then true else active) false

/-- Variables of the `while` loop of `main`. -/
structure LoopState where
  entities : List Entity
  step : ℕ
  active : Bool

/-- Body of the `while` loop of `main`; `tids step i` is the identifier of the worker
that the iteration `step` starts for slot `i`. -/
def loopBody (tids : ℕ → ℕ → String) (s : LoopState) : LoopState :=
  let es := runStep (tids s.step) s.entities
  { entities := es, step := s.step + 1, active := computeActive es }

/-- The loop `while (active && step < maxSteps) { ... }` of `main`, the ceiling being a
parameter. -/
def stepLoop (tids : ℕ → ℕ → String) (maxSteps : ℕ) (s : LoopState) : LoopState :=
  if s.active = true ∧ s.step < maxSteps then stepLoop tids maxSteps (loopBody tids s)
  else s
termination_by maxSteps - s.step
decreasing_by
  simp only [loopBody]
  omega

/-- The loop variables on entry: `int step = 0; bool active = true;`. -/
def initState (es : List Entity) : LoopState :=
  { entities := es, step := 0, active := true }

/-- The loop of `main` with the ceiling `15` of the source. -/
def mainLoop (tids : ℕ → ℕ → String) (es : List Entity) : LoopState :=
  stepLoop tids 15 (initState es)

/-- Number of iterations the loop with ceiling `maxSteps` executes: the final `step`. -/
def stepsExecuted (tids : ℕ → ℕ → String) (maxSteps : ℕ) (es : List Entity) : ℕ :=
  (stepLoop tids maxSteps (initState es)).step

/-- The collection after `k` executions of the loop body. -/
def afterSteps (tids : ℕ → ℕ → String) (k : ℕ) (es : List Entity) : List Entity :=
  ((loopBody tids)^[k] (initState es)).entities

/-! ## Concrete entity states -/

/-- Speed 8 from (10,10) toward (50,50), still moving. -/
def diagonal : Entity :=
  { x := 10, y := 10, targetX := 50, targetY := 50, speed := 8, isMoving := true,
    displayName := "Physical Entity", lastThreadID := "Main" }

/-- An arrived entity resting at (0,0) with target (3,4) and speed 1. -/
def resting : Entity :=
  { x := 0, y := 0, targetX := 3, targetY := 4, speed := 1, isMoving := false,
    displayName := "Legal Entity", lastThreadID := "Main" }

/-- A movement-active entity at (0,0) with target (3,4), exactly one step of speed 5 away. -/
def oneStepAway : Entity :=
  { x := 0, y := 0, targetX := 3, targetY := 4, speed := 5, isMoving := true,
    displayName := "Legal Entity", lastThreadID := "Main" }

/-- `Entity::isInRect`. -/
def isInRect (px py minX maxX minY maxY : ℝ) : Bool :=
  decide (px ≥ minX ∧ px ≤ maxX ∧ py ≥ minY ∧ py ≤ maxY)

/-- What one construction takes from its surroundings: `randX` and `randY` are the values
that the calls `randomDouble(minX, maxX)` and `randomDouble(minY, maxY)` return, `tx0` and
`ty0` the contents of the members `targetX` and `targetY` before they are assigned. -/
structure Draw where
  randX : ℝ
  randY : ℝ
  tx0 : ℝ
  ty0 : ℝ

/-- Constructor `LegalEntity::LegalEntity(startX, startY, v)`. -/
def LegalEntity.new (startX startY v : ℝ) (d : Draw) : Except SimulationException Entity :=
  match Entity.new startX startY v "Legal Entity" d.tx0 d.ty0 with
  | .error ex => .error ex
  | .ok e =>
    let minX : ℝ := 0
    let maxX : ℝ := SIM_WIDTH / 2.0
    let minY : ℝ := 0
    let maxY : ℝ := SIM_HEIGHT / 2.0
    if isInRect startX startY minX maxX minY maxY then
      .ok { e with isMoving := false, targetX := startX, targetY := startY }
    else
      .ok { e with targetX := d.randX, targetY := d.randY, isMoving := true }

/-- Constructor `PhysicalEntity::PhysicalEntity(startX, startY, v)`. -/
def PhysicalEntity.new (startX startY v : ℝ) (d : Draw) :
    Except SimulationException Entity :=
  match Entity.new startX startY v "Physical Entity" d.tx0 d.ty0 with
  | .error ex => .error ex
  | .ok e =>
    let minX : ℝ := SIM_WIDTH / 2.0
    let maxX : ℝ := SIM_WIDTH
    let minY : ℝ := SIM_HEIGHT / 2.0
    let maxY : ℝ := SIM_HEIGHT
    if isInRect startX startY minX maxX minY maxY then
      .ok { e with isMoving := false, targetX := startX, targetY := startY }
    else
      .ok { e with targetX := d.randX, targetY := d.randY, isMoving := true }

/-- The two classes derived from `Entity`. -/
inductive Kind where
  | legal
  | physical

/-- One statement `entities.push_back(unique_ptr<Entity>(new K(startX, startY, v)))`
together with what its construction draws. -/
structure Request where
  kind : Kind
  startX : ℝ
  startY : ℝ
  v : ℝ
  draw : Draw

/-- The expression `new K(startX, startY, v)` of a request. -/
def Request.construct (r : Request) : Except SimulationException Entity :=
  match r.kind with
  | .legal => LegalEntity.new r.startX r.startY r.v r.draw
  | .physical => PhysicalEntity.new r.startX r.startY r.v r.draw

/-- The block `try { push_back(...); push_back(...); ... } catch (const SimulationException&)
{ ... }` of `main`: the statements run in order, the first exception leaves the block, and
`entities` keeps what was pushed until then. -/
def buildEntities : List Request → List Entity
  | [] => []
  | r :: rest =>
    match r.construct with
    | .error _ => []
    | .ok e => e :: buildEntities rest

/-- The local `defaultSpeed` of `main`. -/
def defaultSpeed : ℝ := 8.0

/-- The four constructions of `main`, the `i`-th one drawing `env i`. -/
def mainRequests (env : ℕ → Draw) : List Request :=
  [ { kind := .legal, startX := 90, startY := 90, v := defaultSpeed, draw := env 0 },
    { kind := .physical, startX := 10, startY := 10, v := defaultSpeed, draw := env 1 },
    { kind := .legal, startX := 80, startY := 20, v := defaultSpeed, draw := env 2 },
    { kind := .physical, startX := 20, startY := 80, v := defaultSpeed, draw := env 3 } ]

/-- The collection `entities` of `main` when the loop starts. -/
def mainEntities (env : ℕ → Draw) : List Entity :=
  buildEntities (mainRequests env)

/-- The simulation plane [0, SIM_WIDTH] x [0, SIM_HEIGHT]. -/
def inPlane (px py : ℝ) : Prop :=
  0 ≤ px ∧ px ≤ SIM_WIDTH ∧ 0 ≤ py ∧ py ≤ SIM_HEIGHT

/-- Zone of `LegalEntity`: the rectangle its constructor passes to `isInRect`. -/
def legalZone (px py : ℝ) : Prop :=
  isInRect px py 0 (SIM_WIDTH / 2.0) 0 (SIM_HEIGHT / 2.0) = true

/-- Zone of `PhysicalEntity`: the rectangle its constructor passes to `isInRect`. -/
def physicalZone (px py : ℝ) : Prop :=
  isInRect px py (SIM_WIDTH / 2.0) SIM_WIDTH (SIM_HEIGHT / 2.0) SIM_HEIGHT = true

/-- Every draw of the four constructions of `main` lies in the zone of its class. -/
def zoneDraws (env : ℕ → Draw) : Prop :=
  legalZone (env 0).randX (env 0).randY ∧ physicalZone (env 1).randX (env 1).randY ∧
    legalZone (env 2).randX (env 2).randY ∧ physicalZone (env 3).randX (env 3).randY

/-- The thread identifiers under which slot `i` is moved in the first `k` steps. -/
def slotThreads (tids : ℕ → ℕ → String) (k i : ℕ) : List String :=
  (List.range k).map (fun j => tids j i)

/-- Draws that give every entity of `main` the corner (0,0) or (100,100) of its zone. -/
def cornerDraws (i : ℕ) : Draw :=
  if i % 2 = 0 then { randX := 0, randY := 0, tx0 := 0, ty0 := 0 }
  else { randX := 100, randY := 100, tx0 := 0, ty0 := 0 }

/-- A request with a negative speed. -/
def badRequest : Request :=
  { kind := .legal, startX := 90, startY := 90, v := -1,
    draw := { randX := 25, randY := 25, tx0 := 0, ty0 := 0 } }

/-- A request with valid parameters. -/
def goodRequest : Request :=
  { kind := .physical, startX := 10, startY := 10, v := 8,
    draw := { randX := 75, randY := 75, tx0 := 0, ty0 := 0 } }

/-! ## The same code in IEEE-754 double arithmetic

The definitions above read the arithmetic of `double` as exact real arithmetic.  The
namespace `Ieee` repeats the data members, the constructors and `Entity::move` with the
values and operations of binary64: NaN and the infinities are values, comparisons with NaN
are false, and every `+`, `-`, `*`, `/` and `sqrt` is rounded to the nearest double, ties
to even, each operation on its own.  The two zeros are identified: the only divisor in the
source is a square root of a sum of squares, whose zero is `+0`. -/

namespace Ieee

/-- Values of the type `double`: NaN, the two infinities and the finite values, a finite
value being given by the real number it denotes. -/
inductive Dbl where
  | nan
  | pinf
  | ninf
  | fin (r : ℝ)

/-- Nearest integer, ties to the even one. -/
def roundHalfEven (y : ℝ) : ℤ :=
  if y - ⌊y⌋ < 1 / 2 then ⌊y⌋
  else if 1 / 2 < y - ⌊y⌋ then ⌊y⌋ + 1
  else if Even ⌊y⌋ then ⌊y⌋ else ⌊y⌋ + 1

/-- Exponent of the spacing of the doubles around `x`: 52 below the binary exponent of
`x`, and never below the spacing `2 ^ (-1074)` of the subnormal numbers. -/
def gridExp (x : ℝ) : ℤ := max (Int.log 2 |x| - 52) (-1074)

/-- The multiple of the spacing nearest to `x`, before the check for overflow. -/
def rndFin (x : ℝ) : ℝ :=
  (roundHalfEven (x / (2 : ℝ) ^ gridExp x) : ℝ) * (2 : ℝ) ^ gridExp x

/-- Rounding of an exact result to a double, to nearest and ties to even; a result that
rounds to `2 ^ 1024` or beyond in magnitude overflows to an infinity. -/
def rnd (x : ℝ) : Dbl :=
  if (2 : ℝ) ^ (1024 : ℕ) ≤ rndFin x then .pinf
  else if rndFin x ≤ -(2 : ℝ) ^ (1024 : ℕ) then .ninf
  else .fin (rndFin x)

/-- The real number a finite double denotes, and 0 for NaN and the infinities. -/
def Dbl.val : Dbl → ℝ
  | .fin r => r
  | _ => 0

/-- Test for NaN. -/
def Dbl.isNaN : Dbl → Bool
  | .nan => true
  | _ => false

/-- A value of the model that is a double: a finite value is one that rounding leaves
unchanged. -/
def Dbl.IsDouble : Dbl → Prop
  | .fin r => rnd r = .fin r
  | _ => True

/-- Comparison `a < b` of doubles; `a > b` in the source is `b < a`. -/
def Dbl.lt : Dbl → Dbl → Bool
  | .fin a, .fin b => decide (a < b)
  | .ninf, .fin _ => true
  | .ninf, .pinf => true
  | .fin _, .pinf => true
  | _, _ => false

/-- Comparison `a <= b` of doubles; `a >= b` in the source is `b <= a`. -/
def Dbl.le : Dbl → Dbl → Bool
  | .fin a, .fin b => decide (a ≤ b)
  | .ninf, .ninf => true
  | .ninf, .fin _ => true
  | .ninf, .pinf => true
  | .fin _, .pinf => true
  | .pinf, .pinf => true
  | _, _ => false

/-- Addition of doubles. -/
def Dbl.add : Dbl → Dbl → Dbl
  | .nan, _ => .nan
  | _, .nan => .nan
  | .pinf, .ninf => .nan
  | .ninf, .pinf => .nan
  | .pinf, _ => .pinf
  | .ninf, _ => .ninf
  | .fin _, .pinf => .pinf
  | .fin _, .ninf => .ninf
  | .fin a, .fin b => rnd (a + b)

/-- Subtraction of doubles. -/
def Dbl.sub : Dbl → Dbl → Dbl
  | .nan, _ => .nan
  | _, .nan => .nan
  | .pinf, .pinf => .nan
  | .ninf, .ninf => .nan
  | .pinf, _ => .pinf
  | .ninf, _ => .ninf
  | .fin _, .pinf => .ninf
  | .fin _, .ninf => .pinf
  | .fin a, .fin b => rnd (a - b)

/-- Multiplication of doubles. -/
def Dbl.mul : Dbl → Dbl → Dbl
  | .nan, _ => .nan
  | _, .nan => .nan
  | .pinf, .pinf => .pinf
  | .pinf, .ninf => .ninf
  | .ninf, .pinf => .ninf
  | .ninf, .ninf => .pinf
  | .pinf, .fin b => if b = 0 then .nan else if 0 < b then .pinf else .ninf
  | .ninf, .fin b => if b = 0 then .nan else if 0 < b then .ninf else .pinf
  | .fin a, .pinf => if a = 0 then .nan else if 0 < a then .pinf else .ninf
  | .fin a, .ninf => if a = 0 then .nan else if 0 < a then .ninf else .pinf
  | .fin a, .fin b => rnd (a * b)

/-- Division of doubles, a zero divisor being `+0`. -/
def Dbl.div : Dbl → Dbl → Dbl
  | .nan, _ => .nan
  | _, .nan => .nan
  | .pinf, .pinf => .nan
  | .pinf, .ninf => .nan
  | .ninf, .pinf => .nan
  | .ninf, .ninf => .nan
  | .fin _, .pinf => .fin 0
  | .fin _, .ninf => .fin 0
  | .pinf, .fin b => if b < 0 then .ninf else .pinf
  | .ninf, .fin b => if b < 0 then .pinf else .ninf
  | .fin a, .fin b =>
    if b = 0 then (if a = 0 then .nan else if 0 < a then .pinf else .ninf)
    else rnd (a / b)

/-- The function `sqrt` on doubles. -/
def Dbl.sqrt : Dbl → Dbl
  | .nan => .nan
  | .pinf => .pinf
  | .ninf => .nan
  | .fin a => if a < 0 then .nan else rnd (Real.sqrt a)

/-- Global setting `SIM_WIDTH`. -/
def SIM_WIDTH : Dbl := .fin 100.0

/-- Global setting `SIM_HEIGHT`. -/
def SIM_HEIGHT : Dbl := .fin 100.0

/-- Data members of `class Entity`. -/
structure Entity where
  x : Dbl
  y : Dbl
  targetX : Dbl
  targetY : Dbl
  speed : Dbl
  isMoving : Bool
  displayName : String
  lastThreadID : String

/-- The local `distance` of `Entity::move` as the code computes it:
`sqrt(dx * dx + dy * dy)` with `dx = targetX - x`, `dy = targetY - y`, every operation
rounded. -/
def Entity.distance (e : Entity) : Dbl :=
  Dbl.sqrt (Dbl.add (Dbl.mul (Dbl.sub e.targetX e.x) (Dbl.sub e.targetX e.x))
    (Dbl.mul (Dbl.sub e.targetY e.y) (Dbl.sub e.targetY e.y)))

/-- The exact straight-line distance between position and target. -/
def Entity.exactDistance (e : Entity) : ℝ :=
  Real.sqrt ((e.targetX.val - e.x.val) * (e.targetX.val - e.x.val) +
    (e.targetY.val - e.y.val) * (e.targetY.val - e.y.val))

/-- `Entity::move`, run by the thread whose identifier prints as `tid`. -/
def Entity.move (tid : String) (e : Entity) : Entity :=
  let e1 := { e with lastThreadID := tid }
  if !e1.isMoving then e1
  else
    let dx := Dbl.sub e1.targetX e1.x
    let dy := Dbl.sub e1.targetY e1.y
    let distance := Dbl.sqrt (Dbl.add (Dbl.mul dx dx) (Dbl.mul dy dy))
    if Dbl.le distance e1.speed then
      { e1 with x := e1.targetX, y := e1.targetY, isMoving := false }
    else
      let ratio := Dbl.div e1.speed distance
      { e1 with x := Dbl.add e1.x (Dbl.mul dx ratio), y := Dbl.add e1.y (Dbl.mul dy ratio) }

/-- Repeated calls of `Entity::move` on one entity, one call per listed thread identifier. -/
def Entity.moveN (tids : List String) (e : Entity) : Entity :=
  tids.foldl (fun acc tid => acc.move tid) e

/-- The path a call of `Entity::move` takes: the early return, the arrival branch, or the
branch that evaluates `speed / distance`, recorded with its divisor. -/
inductive MoveBranch where
  | returned
  | snapped
  | divided (distance : Dbl)

/-- Control flow of `Entity::move`. -/
def Entity.moveBranch (e : Entity) : MoveBranch :=
  if !e.isMoving then .returned
  else
    let dx := Dbl.sub e.targetX e.x
    let dy := Dbl.sub e.targetY e.y
    let distance := Dbl.sqrt (Dbl.add (Dbl.mul dx dx) (Dbl.mul dy dy))
    if Dbl.le distance e.speed then .snapped
    else .divided distance

/-- The exception classes derived from `SimulationException`, with their constructor
arguments. -/
inductive SimulationException where
  | outOfBounds (x y : Dbl)
  | physicsParameter (paramName : String) (value : Dbl)

/-- Constructor `Entity::Entity(startX, startY, v, name)`; `tx0` and `ty0` stand for what
the members `targetX` and `targetY`, which it does not initialise, hold. -/
def Entity.new (startX startY v : Dbl) (name : String) (tx0 ty0 : Dbl) :
    Except SimulationException Entity :=
  if Dbl.lt v (.fin 0) then .error (.physicsParameter "Speed" v)
  else if Dbl.lt startX (.fin 0) || Dbl.lt SIM_WIDTH startX || Dbl.lt startY (.fin 0) ||
      Dbl.lt SIM_HEIGHT startY then
    .error (.outOfBounds startX startY)
  else
    .ok { x := startX, y := startY, targetX := tx0, targetY := ty0, speed := v,
          isMoving := true, displayName := name, lastThreadID := "Main" }

/-- `Entity::isInRect`. -/
def isInRect (px py minX maxX minY maxY : Dbl) : Bool :=
  Dbl.le minX px && Dbl.le px maxX && Dbl.le minY py && Dbl.le py maxY

/-- What one construction takes from its surroundings: the values the two calls of
`randomDouble` return and the contents of `targetX` and `targetY` before they are
assigned. -/
structure Draw where
  randX : Dbl
  randY : Dbl
  tx0 : Dbl
  ty0 : Dbl

/-- Constructor `LegalEntity::LegalEntity(startX, startY, v)`. -/
def LegalEntity.new (startX startY v : Dbl) (d : Draw) : Except SimulationException Entity :=
  match Entity.new startX startY v "Legal Entity" d.tx0 d.ty0 with
  | .error ex => .error ex
  | .ok e =>
    let minX : Dbl := .fin 0
    let maxX : Dbl := Dbl.div SIM_WIDTH (.fin 2.0)
    let minY : Dbl := .fin 0
    let maxY : Dbl := Dbl.div SIM_HEIGHT (.fin 2.0)
    if isInRect startX startY minX maxX minY maxY then
      .ok { e with isMoving := false, targetX := startX, targetY := startY }
    else
      .ok { e with targetX := d.randX, targetY := d.randY, isMoving := true }

/-- Constructor `PhysicalEntity::PhysicalEntity(startX, startY, v)`. -/
def PhysicalEntity.new (startX startY v : Dbl) (d : Draw) :
    Except SimulationException Entity :=
  match Entity.new startX startY v "Physical Entity" d.tx0 d.ty0 with
  | .error ex => .error ex
  | .ok e =>
    let minX : Dbl := Dbl.div SIM_WIDTH (.fin 2.0)
    let maxX : Dbl := SIM_WIDTH
    let minY : Dbl := Dbl.div SIM_HEIGHT (.fin 2.0)
    let maxY : Dbl := SIM_HEIGHT
    if isInRect startX startY minX maxX minY maxY then
      .ok { e with isMoving := false, targetX := startX, targetY := startY }
    else
      .ok { e with targetX := d.randX, targetY := d.randY, isMoving := true }

/-- `Entity::getIsMoving`. -/
def Entity.getIsMoving (e : Entity) : Bool := e.isMoving

/-- The mutation phase of one step with the moves applied one after the other in the
order `order`. -/
def stepInOrder (tids : ℕ → String) (order : List ℕ) (es : List Entity) : List Entity :=
  order.foldl (fun acc i => acc.modify (Entity.move (tids i)) i) es

/-- The mutation phase of one step of `main`. -/
def runStep (tids : ℕ → String) (es : List Entity) : List Entity :=
  stepInOrder tids (List.range es.length) es

/-- The read phase of one step: `active = false; for (e : entities) if (e->getIsMoving())
active = true;`. -/
def computeActive (es : List Entity) : Bool :=
  es.foldl (fun active e => if e.getIsMoving then true else active) false

/-- Variables of the `while` loop of `main`. -/
structure LoopState where
  entities : List Entity
  step : ℕ
  active : Bool

/-- Body of the `while` loop of `main`. -/
def loopBody (tids : ℕ → ℕ → String) (s : LoopState) : LoopState :=
  let es := runStep (tids s.step) s.entities
  { entities := es, step := s.step + 1, active := computeActive es }

/-- The loop `while (active && step < maxSteps) { ... }` of `main`, the ceiling being a
parameter. -/
def stepLoop (tids : ℕ → ℕ → String) (maxSteps : ℕ) (s : LoopState) : LoopState :=
  if s.active = true ∧ s.step < maxSteps then stepLoop tids maxSteps (loopBody tids s)
  else s
termination_by maxSteps - s.step
decreasing_by
  simp only [loopBody]
  omega

/-- The loop variables on entry: `int step = 0; bool active = true;`. -/
def initState (es : List Entity) : LoopState :=
  { entities := es, step := 0, active := true }

/-- The loop of `main` with the ceiling `15` of the source. -/
def mainLoop (tids : ℕ → ℕ → String) (es : List Entity) : LoopState :=
  stepLoop tids 15 (initState es)

/-- At (0,0) with target (59.23301719274383, 75.59543195209028) and speed
96.03759502288152, the distance that `move` computes, which lies below the exact one. -/
def overshoot : Entity :=
  { x := .fin 0, y := .fin 0, targetX := .fin (1042038258426841 / 2 ^ 44),
    targetY := .fin (664944451504581 / 2 ^ 43),
    speed := .fin (6758044955603247 / 2 ^ 46), isMoving := true,
    displayName := "Physical Entity", lastThreadID := "Main" }

/-- At (0,0) with target (91.65353628879905, 50.253719734831456) and speed
104.52658542891943, the double just below the distance that `move` computes. -/
def nearMiss : Entity :=
  { x := .fin 0, y := .fin 0, targetX := .fin (806193031010593 / 2 ^ 43),
    targetY := .fin (7072582295992759 / 2 ^ 47),
    speed := .fin (7355404549812373 / 2 ^ 46), isMoving := true,
    displayName := "Physical Entity", lastThreadID := "Main" }

/-- The draw that gives `nearMiss` its target. -/
def nearMissDraw : Draw :=
  { randX := .fin (806193031010593 / 2 ^ 43), randY := .fin (7072582295992759 / 2 ^ 47),
    tx0 := .fin 0, ty0 := .fin 0 }

/-- What the construction of `LegalEntity(NaN, 10, 8)` draws. -/
def nanStartDraw : Draw :=
  { randX := .fin 25, randY := .fin 25, tx0 := .fin 0, ty0 := .fin 0 }

/-- The entity `LegalEntity(NaN, 10, 8)` with target (25,25). -/
def nanStart : Entity :=
  { x := .nan, y := .fin 10, targetX := .fin 25, targetY := .fin 25, speed := .fin 8,
    isMoving := true, displayName := "Legal Entity", lastThreadID := "Main" }

end Ieee

/-! ## Basic facts about `move` -/

theorem distance_nonneg (e : Entity) : 0 ≤ e.distance := Real.sqrt_nonneg _

theorem move_idle (tid : String) (e : Entity) (h : e.isMoving = false) :
    e.move tid = { e with lastThreadID := tid } := by
  simp [Entity.move, h]

theorem move_snap (tid : String) (e : Entity) (h : e.isMoving = true)
    (hd : e.distance ≤ e.speed) :
    e.move tid =
      { e with lastThreadID := tid, x := e.targetX, y := e.targetY, isMoving := false } := by
  unfold Entity.distance at hd
  simp [Entity.move, h, hd]

theorem move_advance (tid : String) (e : Entity) (h : e.isMoving = true)
    (hd : e.speed < e.distance) :
    e.move tid =
      { e with lastThreadID := tid,
               x := e.x + (e.targetX - e.x) * (e.speed / e.distance),
               y := e.y + (e.targetY - e.y) * (e.speed / e.distance) } := by
  have hd' := not_le.mpr hd
  unfold Entity.distance at hd'
  simp [Entity.move, h, hd', Entity.distance]

theorem distance_at_target (e : Entity) (hx : e.x = e.targetX) (hy : e.y = e.targetY) :
    e.distance = 0 := by
  simp [Entity.distance, hx, hy]

/-- After an advance the remaining distance is the old distance minus the speed. -/
theorem distance_advance (tid : String) (e : Entity) (h : e.isMoving = true)
    (hs : 0 ≤ e.speed) (hd : e.speed < e.distance) :
    (e.move tid).distance = e.distance - e.speed := by
  have hpos : 0 < e.distance := lt_of_le_of_lt hs hd
  rw [move_advance tid e h hd]
  have hne : e.distance ≠ 0 := ne_of_gt hpos
  have key : ∀ a b r : ℝ, (a - (b + (a - b) * r)) = (a - b) * (1 - r) := by
    intro a b r; ring
  show Real.sqrt (_ ) = _
  simp only [key]
  have hsq : (e.targetX - e.x) * (1 - e.speed / e.distance) *
        ((e.targetX - e.x) * (1 - e.speed / e.distance)) +
      (e.targetY - e.y) * (1 - e.speed / e.distance) *
        ((e.targetY - e.y) * (1 - e.speed / e.distance)) =
      ((e.targetX - e.x) * (e.targetX - e.x) + (e.targetY - e.y) * (e.targetY - e.y)) *
        ((1 - e.speed / e.distance) * (1 - e.speed / e.distance)) := by ring
  rw [hsq]
  have h1 : 0 ≤ 1 - e.speed / e.distance := by
    rw [sub_nonneg, div_le_one hpos]; exact le_of_lt hd
  rw [Real.sqrt_mul' _ (mul_nonneg h1 h1), Real.sqrt_mul_self h1]
  show e.distance * _ = _
  field_simp

theorem sqrt_3200 : Real.sqrt (40 * 40 + 40 * 40) = 40 * Real.sqrt 2 := by
  have h : (40 * 40 + 40 * 40 : ℝ) = (40 * 40) * 2 := by norm_num
  rw [h, Real.sqrt_mul (by norm_num), Real.sqrt_mul_self (by norm_num)]

theorem sqrt_two_lower : (1.414 : ℝ) < Real.sqrt 2 := by
  rw [Real.lt_sqrt (by norm_num)]
  norm_num

theorem oneStepAway_distance : oneStepAway.distance = 5 := by
  have h : oneStepAway.distance = Real.sqrt (5 * 5) := by
    simp only [Entity.distance, oneStepAway]
    norm_num
  rw [h, Real.sqrt_mul_self (by norm_num)]

theorem resting_distance : resting.distance = 5 := by
  have h : resting.distance = Real.sqrt (5 * 5) := by
    simp only [Entity.distance, resting]
    norm_num
  rw [h, Real.sqrt_mul_self (by norm_num)]

/-! ## Claims about a single call of `move` -/

/-- C1: for every entity state with non-negative speed, moving or not, one call of `move`
does not increase the straight-line distance to the target. -/
theorem move_distance_le (tid : String) (e : Entity) (hs : 0 ≤ e.speed) :
    (e.move tid).distance ≤ e.distance := by
  cases h : e.isMoving with
  | false =>
    rw [move_idle tid e h]
    exact le_of_eq rfl
  | true =>
    rcases le_or_lt e.distance e.speed with hd | hd
    · rw [move_snap tid e h hd]
      have : ({ e with lastThreadID := tid, x := e.targetX, y := e.targetY,
                       isMoving := false } : Entity).distance = 0 :=
        distance_at_target _ rfl rfl
      rw [this]
      exact distance_nonneg e
    · rw [distance_advance tid e h hs hd]
      linarith

theorem move_distance_le_witness :
    0 ≤ diagonal.speed ∧ (diagonal.move "2").distance ≤ diagonal.distance :=
  ⟨by simp [diagonal], move_distance_le "2" diagonal (by simp [diagonal])⟩

/-- In exact real arithmetic a movement-active entity whose distance to the target is at
most its speed is put exactly on its target by one call of `move`, and the same call
clears the movement-active flag. -/
theorem move_snaps_within_reach (tid : String) (e : Entity) (hm : e.isMoving = true)
    (hd : e.distance ≤ e.speed) :
    (e.move tid).x = e.targetX ∧ (e.move tid).y = e.targetY ∧
      (e.move tid).targetX = e.targetX ∧ (e.move tid).targetY = e.targetY ∧
      (e.move tid).distance = 0 ∧ (e.move tid).isMoving = false := by
  rw [move_snap tid e hm hd]
  exact ⟨rfl, rfl, rfl, rfl, distance_at_target _ rfl rfl, rfl⟩

theorem moveN_nil (e : Entity) : e.moveN [] = e := rfl

theorem moveN_cons (t : String) (ts : List String) (e : Entity) :
    e.moveN (t :: ts) = (e.move t).moveN ts := rfl

theorem moveN_concat (ts : List String) (t : String) (e : Entity) :
    e.moveN (ts ++ [t]) = (e.moveN ts).move t := by
  simp [Entity.moveN, List.foldl_append]

theorem move_speed (tid : String) (e : Entity) : (e.move tid).speed = e.speed := by
  unfold Entity.move
  simp only
  split_ifs <;> rfl

theorem move_targetX (tid : String) (e : Entity) : (e.move tid).targetX = e.targetX := by
  unfold Entity.move
  simp only
  split_ifs <;> rfl

theorem move_targetY (tid : String) (e : Entity) : (e.move tid).targetY = e.targetY := by
  unfold Entity.move
  simp only
  split_ifs <;> rfl

theorem move_displayName (tid : String) (e : Entity) :
    (e.move tid).displayName = e.displayName := by
  unfold Entity.move
  simp only
  split_ifs <;> rfl

/-- While the travelled length `k * speed` stays below the initial distance, `k` calls
leave the entity moving, at the initial distance minus `k * speed`. -/
theorem moveN_en_route (tids : List String) :
    ∀ e : Entity, e.isMoving = true → 0 ≤ e.speed →
      (tids.length : ℝ) * e.speed < e.distance →
      (e.moveN tids).isMoving = true ∧ (e.moveN tids).speed = e.speed ∧
        (e.moveN tids).distance = e.distance - (tids.length : ℝ) * e.speed ∧
        (e.moveN tids).targetX = e.targetX ∧ (e.moveN tids).targetY = e.targetY := by
  induction tids with
  | nil =>
    intro e hm _ _
    refine ⟨hm, rfl, ?_, rfl, rfl⟩
    simp [moveN_nil]
  | cons t ts ih =>
    intro e hm hs hlt
    have hlen : (((t :: ts).length : ℕ) : ℝ) = (ts.length : ℝ) + 1 := by
      simp
    rw [hlen] at hlt
    have hk : 0 ≤ (ts.length : ℝ) * e.speed := mul_nonneg (Nat.cast_nonneg _) hs
    have hfar : e.speed < e.distance := by nlinarith
    have hm' : (e.move t).isMoving = true := by
      rw [move_advance t e hm hfar]; exact hm
    have hd' := distance_advance t e hm hs hfar
    have hs' : (e.move t).speed = e.speed := move_speed t e
    have hlt' : (ts.length : ℝ) * (e.move t).speed < (e.move t).distance := by
      rw [hs', hd']; nlinarith
    obtain ⟨h1, h2, h3, h4, h5⟩ := ih (e.move t) hm' (by rw [hs']; exact hs) hlt'
    rw [moveN_cons]
    refine ⟨h1, by rw [h2, hs'], ?_, by rw [h4, move_targetX], by rw [h5, move_targetY]⟩
    rw [h3, hs', hd', hlen]
    ring

/-- Idle entities stay idle under any number of calls. -/
theorem moveN_idle (tids : List String) :
    ∀ e : Entity, e.isMoving = false →
      (e.moveN tids).isMoving = false ∧ (e.moveN tids).x = e.x ∧ (e.moveN tids).y = e.y := by
  induction tids with
  | nil => intro e h; exact ⟨h, rfl, rfl⟩
  | cons t ts ih =>
    intro e h
    have hstep : (e.move t).isMoving = false ∧ (e.move t).x = e.x ∧ (e.move t).y = e.y := by
      rw [move_idle t e h]; exact ⟨h, rfl, rfl⟩
    obtain ⟨h1, h2, h3⟩ := ih (e.move t) hstep.1
    rw [moveN_cons]
    exact ⟨h1, by rw [h2, hstep.2.1], by rw [h3, hstep.2.2]⟩

theorem stepInOrder_cons (tids : ℕ → String) (a : ℕ) (rest : List ℕ) (es : List Entity) :
    stepInOrder tids (a :: rest) es =
      stepInOrder tids rest (es.modify (Entity.move (tids a)) a) := rfl

theorem length_stepInOrder (tids : ℕ → String) (order : List ℕ) :
    ∀ es : List Entity, (stepInOrder tids order es).length = es.length := by
  induction order with
  | nil => intro es; rfl
  | cons a rest ih =>
    intro es
    rw [stepInOrder_cons, ih, List.length_modify]

/-- Slot `i` after the moves of a duplicate-free order: moved once when `i` is listed,
untouched otherwise. -/
theorem getElem?_stepInOrder (tids : ℕ → String) (order : List ℕ) (hnd : order.Nodup) :
    ∀ (es : List Entity) (i : ℕ),
      (stepInOrder tids order es)[i]? =
        (es[i]?).map (fun e => if i ∈ order then e.move (tids i) else e) := by
  induction order with
  | nil =>
    intro es i
    simp [stepInOrder]
  | cons a rest ih =>
    intro es i
    rw [List.nodup_cons] at hnd
    rw [stepInOrder_cons, ih hnd.2, List.getElem?_modify]
    by_cases hai : a = i
    · subst hai
      have hnot : a ∉ rest := hnd.1
      cases es[a]? <;> simp [hnot]
    · have hia : ¬ i = a := fun h => hai h.symm
      cases es[i]? <;> simp [hai, hia]

/-- Slot `i` after the moves of any order that lists every slot exactly once. -/
theorem getElem?_stepInOrder_perm (tids : ℕ → String) (order : List ℕ) (es : List Entity)
    (hperm : order.Perm (List.range es.length)) (i : ℕ) :
    (stepInOrder tids order es)[i]? = (es[i]?).map (Entity.move (tids i)) := by
  have hnd : order.Nodup := hperm.nodup_iff.mpr (List.nodup_range _)
  rw [getElem?_stepInOrder tids order hnd]
  by_cases hi : i < es.length
  · have hmem : i ∈ order := hperm.mem_iff.mpr (List.mem_range.mpr hi)
    simp [hmem]
  · have hnone : es[i]? = none := List.getElem?_eq_none (not_lt.mp hi)
    simp [hnone]

theorem getElem?_runStep (tids : ℕ → String) (es : List Entity) (i : ℕ) :
    (runStep tids es)[i]? = (es[i]?).map (Entity.move (tids i)) :=
  getElem?_stepInOrder_perm tids _ es (List.Perm.refl _) i

theorem length_runStep (tids : ℕ → String) (es : List Entity) :
    (runStep tids es).length = es.length :=
  length_stepInOrder tids _ es

theorem eraseThread_move (t t' : String) (e : Entity) :
    (e.move t).eraseThread = (e.move t').eraseThread := by
  unfold Entity.move Entity.eraseThread
  simp only
  split_ifs <;> rfl

theorem computeActive_foldl (es : List Entity) :
    ∀ a : Bool, es.foldl (fun active e => if e.getIsMoving then true else active) a =
      (a || es.any (fun e => e.isMoving)) := by
  induction es with
  | nil => intro a; simp
  | cons e rest ih =>
    intro a
    rw [List.foldl_cons, ih]
    cases a <;> cases h : e.isMoving <;> simp [Entity.getIsMoving, h]

theorem computeActive_eq_any (es : List Entity) :
    computeActive es = es.any (fun e => e.isMoving) := by
  unfold computeActive
  rw [computeActive_foldl]
  simp

theorem computeActive_eq_false (es : List Entity) :
    computeActive es = false ↔ ∀ e ∈ es, e.isMoving = false := by
  rw [computeActive_eq_any]
  simp

/-- C9: within one step, applying `move` to the slots in any order that is a permutation
of the slots gives, up to `lastThreadID`, the same collection as applying it in index
order, whichever threads run the calls. -/
theorem step_order_independent (tids tids' : ℕ → String) (order : List ℕ)
    (es : List Entity) (hperm : order.Perm (List.range es.length)) :
    (stepInOrder tids order es).map Entity.eraseThread =
      (runStep tids' es).map Entity.eraseThread := by
  apply List.ext_getElem?
  intro i
  rw [List.getElem?_map, List.getElem?_map, getElem?_stepInOrder_perm tids order es hperm,
    getElem?_runStep]
  cases es[i]? with
  | none => rfl
  | some e =>
    simp only [Option.map_some']
    rw [eraseThread_move]

theorem step_order_independent_witness :
    [2, 0, 1].Perm (List.range [diagonal, oneStepAway, resting].length) ∧
      (stepInOrder (fun _ => "7") [2, 0, 1] [diagonal, oneStepAway, resting]).map
          Entity.eraseThread =
        (runStep (fun _ => "9") [diagonal, oneStepAway, resting]).map Entity.eraseThread :=
  ⟨by decide, step_order_independent _ _ [2, 0, 1] [diagonal, oneStepAway, resting]
    (by decide)⟩

/-! ## The step loop -/

theorem stepLoop_continue (tids : ℕ → ℕ → String) (m : ℕ) (s : LoopState)
    (h : s.active = true ∧ s.step < m) :
    stepLoop tids m s = stepLoop tids m (loopBody tids s) := by
  rw [stepLoop, if_pos h]

theorem stepLoop_stop (tids : ℕ → ℕ → String) (m : ℕ) (s : LoopState)
    (h : ¬ (s.active = true ∧ s.step < m)) : stepLoop tids m s = s := by
  rw [stepLoop, if_neg h]

theorem iterate_step (tids : ℕ → ℕ → String) (j : ℕ) :
    ∀ s : LoopState, ((loopBody tids)^[j] s).step = s.step + j := by
  induction j with
  | zero => intro s; rfl
  | succ j ih =>
    intro s
    rw [Function.iterate_succ_apply, ih]
    simp only [loopBody]
    omega

/-- The loop returns the first iterate of its body at which the loop condition fails. -/
theorem stepLoop_first_exit (tids : ℕ → ℕ → String) (m : ℕ) :
    ∀ (d : ℕ) (s : LoopState), m - s.step ≤ d →
      ∃ n, stepLoop tids m s = (loopBody tids)^[n] s ∧
        (∀ j, j < n → ((loopBody tids)^[j] s).active = true ∧
          ((loopBody tids)^[j] s).step < m) ∧
        ¬ (((loopBody tids)^[n] s).active = true ∧ ((loopBody tids)^[n] s).step < m) := by
  intro d
  induction d with
  | zero =>
    intro s hd
    have hstop : ¬ (s.active = true ∧ s.step < m) := by
      intro h; omega
    exact ⟨0, stepLoop_stop tids m s hstop, fun j hj => absurd hj (Nat.not_lt_zero j), hstop⟩
  | succ d ih =>
    intro s hd
    by_cases hc : s.active = true ∧ s.step < m
    · have hd' : m - (loopBody tids s).step ≤ d := by
        simp only [loopBody]
        omega
      obtain ⟨n, hn, hbefore, hexit⟩ := ih (loopBody tids s) hd'
      refine ⟨n + 1, ?_, ?_, ?_⟩
      · rw [stepLoop_continue tids m s hc, hn, Function.iterate_succ_apply]
      · intro j hj
        cases j with
        | zero => exact hc
        | succ j =>
          rw [Function.iterate_succ_apply]
          exact hbefore j (by omega)
      · rw [Function.iterate_succ_apply]
        exact hexit
    · exact ⟨0, stepLoop_stop tids m s hc, fun j hj => absurd hj (Nat.not_lt_zero j), hc⟩

theorem afterSteps_zero (tids : ℕ → ℕ → String) (es : List Entity) :
    afterSteps tids 0 es = es := rfl

theorem afterSteps_succ (tids : ℕ → ℕ → String) (k : ℕ) (es : List Entity) :
    afterSteps tids (k + 1) es = runStep (tids k) (afterSteps tids k es) := by
  unfold afterSteps
  rw [Function.iterate_succ_apply']
  have hstep : ((loopBody tids)^[k] (initState es)).step = k := by
    rw [iterate_step]
    simp [initState]
  show runStep (tids ((loopBody tids)^[k] (initState es)).step) _ = _
  rw [hstep]

/-- The flag `active` after `j ≥ 1` executions of the body is false exactly when no entity
of the collection at that point is moving. -/
theorem iterate_active (tids : ℕ → ℕ → String) (es : List Entity) (j : ℕ) (hj : 1 ≤ j) :
    ((loopBody tids)^[j] (initState es)).active = computeActive (afterSteps tids j es) := by
  obtain ⟨k, rfl⟩ : ∃ k, j = k + 1 := ⟨j - 1, by omega⟩
  unfold afterSteps
  rw [Function.iterate_succ_apply']
  rfl

/-- Exit index of the loop of `main` in terms of the collections after each step. -/
theorem stepsExecuted_spec (tids : ℕ → ℕ → String) (m : ℕ) (es : List Entity) :
    stepLoop tids m (initState es) =
        (loopBody tids)^[stepsExecuted tids m es] (initState es) ∧
      (∀ j, j < stepsExecuted tids m es → j < m ∧
        (1 ≤ j → computeActive (afterSteps tids j es) = true)) ∧
      (stepsExecuted tids m es < m →
        1 ≤ stepsExecuted tids m es ∧
          computeActive (afterSteps tids (stepsExecuted tids m es) es) = false) := by
  obtain ⟨n, hn, hbefore, hexit⟩ :=
    stepLoop_first_exit tids m (m - (initState es).step) (initState es) (le_refl _)
  have hsteps : stepsExecuted tids m es = n := by
    unfold stepsExecuted
    rw [hn, iterate_step]
    simp [initState]
  rw [hsteps]
  refine ⟨hn, ?_, ?_⟩
  · intro j hj
    have h := hbefore j hj
    rw [iterate_step] at h
    refine ⟨by simpa [initState] using h.2, fun h1 => ?_⟩
    rw [← iterate_active tids es j h1]
    exact h.1
  · intro hlt
    rw [iterate_step] at hexit
    have hstep : (initState es).step + n < m := by simpa [initState] using hlt
    have hact : ((loopBody tids)^[n] (initState es)).active ≠ true := fun h =>
      hexit ⟨h, hstep⟩
    have hn1 : 1 ≤ n := by
      rcases Nat.eq_zero_or_pos n with h0 | h0
      · subst h0
        exact absurd rfl hact
      · exact h0
    refine ⟨hn1, ?_⟩
    rw [← iterate_active tids es n hn1]
    simpa using hact

theorem computeActive_eq_true (es : List Entity) :
    computeActive es = true ↔ ∃ e ∈ es, e.isMoving = true := by
  rw [computeActive_eq_any]
  simp

/-- C6: the flag is a one-way latch.  If an entity is not movement-active after some calls
of `move`, it is not movement-active after any further calls; and in the step loop a slot
whose entity is idle after `j` steps holds an idle entity after `j + k` steps. -/
theorem idle_stays_idle :
    (∀ (e : Entity) (tids later : List String), (e.moveN tids).isMoving = false →
      (e.moveN (tids ++ later)).isMoving = false) ∧
    (∀ (tids : ℕ → ℕ → String) (es : List Entity) (j k i : ℕ) (e : Entity),
      (afterSteps tids j es)[i]? = some e → e.isMoving = false →
        ∃ e', (afterSteps tids (j + k) es)[i]? = some e' ∧ e'.isMoving = false) := by
  constructor
  · intro e tids later h
    have happ : e.moveN (tids ++ later) = (e.moveN tids).moveN later := by
      simp [Entity.moveN, List.foldl_append]
    rw [happ]
    exact (moveN_idle later (e.moveN tids) h).1
  · intro tids es j k i e hget hidle
    induction k with
    | zero => exact ⟨e, hget, hidle⟩
    | succ k ih =>
      obtain ⟨e', hget', hidle'⟩ := ih
      refine ⟨e'.move (tids (j + k) i), ?_, ?_⟩
      · rw [← Nat.add_assoc, afterSteps_succ, getElem?_runStep, hget']
        rfl
      · rw [move_idle _ e' hidle']
        exact hidle'

theorem idle_stays_idle_witness :
    (resting.moveN []).isMoving = false ∧
      (resting.moveN ([] ++ ["2", "3", "4"])).isMoving = false :=
  ⟨rfl, idle_stays_idle.1 resting [] ["2", "3", "4"] rfl⟩

/-- C10: the loop executes at most `maxSteps` steps (at most 15 in `main`) and ends with
the collection reached after that many steps; for `1 ≤ k < maxSteps` it executes exactly
`k` steps if and only if step `k` is the first step after which no entity is
movement-active, and it runs to the ceiling if and only if every earlier step leaves some
entity movement-active. -/
theorem step_loop_bound (tids : ℕ → ℕ → String) (maxSteps : ℕ) (es : List Entity) :
    stepsExecuted tids maxSteps es ≤ maxSteps ∧
      (stepLoop tids maxSteps (initState es)).entities =
        afterSteps tids (stepsExecuted tids maxSteps es) es ∧
      (∀ k, 1 ≤ k → k < maxSteps →
        (stepsExecuted tids maxSteps es = k ↔
          ((∀ e ∈ afterSteps tids k es, e.isMoving = false) ∧
            ∀ j, 1 ≤ j → j < k → ∃ e ∈ afterSteps tids j es, e.isMoving = true))) ∧
      (stepsExecuted tids maxSteps es = maxSteps ↔
        ∀ j, 1 ≤ j → j < maxSteps → ∃ e ∈ afterSteps tids j es, e.isMoving = true) ∧
      (mainLoop tids es).step ≤ 15 := by
  obtain ⟨hfinal, hbefore, hexit⟩ := stepsExecuted_spec tids maxSteps es
  have hle : ∀ (m : ℕ), (∀ j, j < stepsExecuted tids m es → j < m) →
      stepsExecuted tids m es ≤ m := by
    intro m h
    by_contra hcon
    exact absurd (h m (not_le.mp hcon)) (lt_irrefl m)
  have hbound : stepsExecuted tids maxSteps es ≤ maxSteps :=
    hle maxSteps (fun j hj => (hbefore j hj).1)
  refine ⟨hbound, ?_, ?_, ?_, ?_⟩
  · rw [hfinal]
    rfl
  · intro k hk1 hkm
    constructor
    · intro hn
      have hlt : stepsExecuted tids maxSteps es < maxSteps := by omega
      refine ⟨?_, ?_⟩
      · rw [← computeActive_eq_false, ← hn]
        exact (hexit hlt).2
      · intro j hj1 hjk
        rw [← computeActive_eq_true]
        exact (hbefore j (by omega)).2 hj1
    · rintro ⟨hidle, hmoving⟩
      rw [← computeActive_eq_false] at hidle
      rcases Nat.lt_trichotomy (stepsExecuted tids maxSteps es) k with hlt | heq | hgt
      · have hex := hexit (by omega)
        have hmv := (computeActive_eq_true _).mpr
          (hmoving (stepsExecuted tids maxSteps es) hex.1 hlt)
        rw [hex.2] at hmv
        exact Bool.noConfusion hmv
      · exact heq
      · have hmv := (hbefore k hgt).2 hk1
        rw [hidle] at hmv
        exact Bool.noConfusion hmv
  · constructor
    · intro hn j hj1 hjm
      rw [← computeActive_eq_true]
      exact (hbefore j (by omega)).2 hj1
    · intro hmoving
      rcases Nat.lt_or_ge (stepsExecuted tids maxSteps es) maxSteps with hlt | hge
      · have hex := hexit hlt
        have hmv := (computeActive_eq_true _).mpr
          (hmoving (stepsExecuted tids maxSteps es) hex.1 hlt)
        rw [hex.2] at hmv
        exact Bool.noConfusion hmv
      · omega
  · exact hle 15 (fun j hj => ((stepsExecuted_spec tids 15 es).2.1 j hj).1)

theorem step_loop_bound_witness :
    (1 ≤ 1 ∧ 1 < 15) ∧ stepsExecuted (fun _ _ => "2") 15 [oneStepAway] = 1 :=
  have hstep : afterSteps (fun _ _ => "2") 1 [oneStepAway] =
      [oneStepAway.move "2"] := rfl
  have hd : oneStepAway.distance ≤ oneStepAway.speed := by
    rw [oneStepAway_distance]; exact le_of_eq rfl
  have hidle : ∀ e ∈ afterSteps (fun _ _ => "2") 1 [oneStepAway], e.isMoving = false := by
    intro e he
    rw [hstep, List.mem_singleton] at he
    rw [he, move_snap "2" oneStepAway rfl hd]
  ⟨⟨by decide, by decide⟩,
    ((step_loop_bound (fun _ _ => "2") 15 [oneStepAway]).2.2.1 1 (by decide) (by decide)).mpr
      ⟨hidle, fun j h1 h2 => absurd h1 (by omega)⟩⟩

/-! ## The continuation flag -/

/-- C11: after each step the value `active` is the logical OR of the flags of all
entities as they stand once every move of the step has been applied; it is true exactly
when some entity of that collection is movement-active, and false for an empty
collection. -/
theorem active_is_or_of_flags :
    (∀ (tids : ℕ → ℕ → String) (s : LoopState),
      (loopBody tids s).entities = runStep (tids s.step) s.entities ∧
      (loopBody tids s).active =
        (runStep (tids s.step) s.entities).any (fun e => e.isMoving) ∧
      ((loopBody tids s).active = true ↔
        ∃ e ∈ runStep (tids s.step) s.entities, e.isMoving = true)) ∧
    (∀ es : List Entity, computeActive es = es.any (fun e => e.isMoving)) ∧
    computeActive [] = false ∧
    (∀ (tids : ℕ → ℕ → String) (step : ℕ) (active : Bool),
      (loopBody tids { entities := [], step := step, active := active }).active = false) := by
  refine ⟨?_, computeActive_eq_any, rfl, ?_⟩
  · intro tids s
    refine ⟨rfl, computeActive_eq_any _, ?_⟩
    exact computeActive_eq_true _
  · intro tids step active
    rfl

/-! ## Frame of `move` -/

/-- C15: a call of `move` on an entity that is not movement-active changes nothing but
`lastThreadID`, and a call on any entity leaves target, speed and label as they were. -/
theorem move_frame :
    (∀ (tid : String) (e : Entity), e.isMoving = false →
      (e.move tid).x = e.x ∧ (e.move tid).y = e.y ∧
      (e.move tid).targetX = e.targetX ∧ (e.move tid).targetY = e.targetY ∧
      (e.move tid).speed = e.speed ∧ (e.move tid).isMoving = false ∧
      (e.move tid).displayName = e.displayName ∧
      (e.move tid).lastThreadID = tid ∧
      (e.move tid).eraseThread = e.eraseThread) ∧
    (∀ (tid : String) (e : Entity),
      (e.move tid).targetX = e.targetX ∧ (e.move tid).targetY = e.targetY ∧
      (e.move tid).speed = e.speed ∧ (e.move tid).displayName = e.displayName) := by
  constructor
  · intro tid e h
    rw [move_idle tid e h]
    exact ⟨rfl, rfl, rfl, rfl, rfl, h, rfl, rfl, rfl⟩
  · intro tid e
    exact ⟨move_targetX tid e, move_targetY tid e, move_speed tid e, move_displayName tid e⟩

theorem move_frame_witness :
    resting.isMoving = false ∧ (resting.move "2").eraseThread = resting.eraseThread ∧
      (resting.move "2").lastThreadID = "2" :=
  have h := move_frame.1 "2" resting rfl
  ⟨rfl, h.2.2.2.2.2.2.2.2, h.2.2.2.2.2.2.2.1⟩

/-! ## Bounds and arrival -/

/-- A point of the segment between two values of an interval lies in the interval. -/
theorem segment_bounds (a b w r : ℝ) (ha : 0 ≤ a ∧ a ≤ w) (hb : 0 ≤ b ∧ b ≤ w)
    (hr0 : 0 ≤ r) (hr1 : r ≤ 1) : 0 ≤ a + (b - a) * r ∧ a + (b - a) * r ≤ w := by
  have h1 : 0 ≤ 1 - r := sub_nonneg.mpr hr1
  have hx : a + (b - a) * r = (1 - r) * a + r * b := by ring
  rw [hx]
  constructor
  · exact add_nonneg (mul_nonneg h1 ha.1) (mul_nonneg hr0 hb.1)
  · have h2 : (1 - r) * a ≤ (1 - r) * w := mul_le_mul_of_nonneg_left ha.2 h1
    have h3 : r * b ≤ r * w := mul_le_mul_of_nonneg_left hb.2 hr0
    have h4 : (1 - r) * w + r * w = w := by ring
    linarith

/-- One call of `move` keeps the position in the plane when position and target are in
it and the speed is non-negative. -/
theorem move_inPlane (tid : String) (e : Entity) (hs : 0 ≤ e.speed)
    (hp : inPlane e.x e.y) (ht : inPlane e.targetX e.targetY) :
    inPlane (e.move tid).x (e.move tid).y := by
  cases hm : e.isMoving with
  | false => rw [move_idle tid e hm]; exact hp
  | true =>
    rcases le_or_lt e.distance e.speed with hd | hd
    · rw [move_snap tid e hm hd]; exact ht
    · have hpos : 0 < e.distance := lt_of_le_of_lt hs hd
      have hr0 : 0 ≤ e.speed / e.distance := div_nonneg hs (le_of_lt hpos)
      have hr1 : e.speed / e.distance ≤ 1 := le_of_lt ((div_lt_one hpos).mpr hd)
      rw [move_advance tid e hm hd]
      have hx := segment_bounds e.x e.targetX SIM_WIDTH _ ⟨hp.1, hp.2.1⟩ ⟨ht.1, ht.2.1⟩
        hr0 hr1
      have hy := segment_bounds e.y e.targetY SIM_HEIGHT _ ⟨hp.2.2.1, hp.2.2.2⟩
        ⟨ht.2.2.1, ht.2.2.2⟩ hr0 hr1
      exact ⟨hx.1, hx.2, hy.1, hy.2⟩

/-- C14: an entity with non-negative speed whose position and target lie in
[0, SIM_WIDTH] x [0, SIM_HEIGHT] has its position in that rectangle after any number of
calls of `move`. -/
theorem position_stays_in_plane (tids : List String) (e : Entity) (hs : 0 ≤ e.speed)
    (hp : inPlane e.x e.y) (ht : inPlane e.targetX e.targetY) :
    inPlane (e.moveN tids).x (e.moveN tids).y ∧
      (0 ≤ (e.moveN tids).x ∧ (e.moveN tids).x ≤ 100 ∧
        0 ≤ (e.moveN tids).y ∧ (e.moveN tids).y ≤ 100) := by
  have hW : SIM_WIDTH = 100 := by norm_num [SIM_WIDTH]
  have hH : SIM_HEIGHT = 100 := by norm_num [SIM_HEIGHT]
  have main : ∀ (ts : List String) (a : Entity), 0 ≤ a.speed → inPlane a.x a.y →
      inPlane a.targetX a.targetY → inPlane (a.moveN ts).x (a.moveN ts).y := by
    intro ts
    induction ts with
    | nil => intro a _ h _; exact h
    | cons t ts ih =>
      intro a has hap hat
      rw [moveN_cons]
      apply ih (a.move t)
      · rw [move_speed]; exact has
      · exact move_inPlane t a has hap hat
      · rw [move_targetX, move_targetY]; exact hat
  have h := main tids e hs hp ht
  refine ⟨h, ?_⟩
  unfold inPlane at h
  rw [hW, hH] at h
  exact h

theorem position_stays_in_plane_witness :
    0 ≤ diagonal.speed ∧ inPlane diagonal.x diagonal.y ∧
      inPlane diagonal.targetX diagonal.targetY ∧
      inPlane (diagonal.moveN ["2", "3", "4"]).x (diagonal.moveN ["2", "3", "4"]).y :=
  have hs : 0 ≤ diagonal.speed := by simp [diagonal]
  have hp : inPlane diagonal.x diagonal.y := by
    simp only [inPlane, diagonal, SIM_WIDTH, SIM_HEIGHT]; norm_num
  have ht : inPlane diagonal.targetX diagonal.targetY := by
    simp only [inPlane, diagonal, SIM_WIDTH, SIM_HEIGHT]; norm_num
  ⟨hs, hp, ht, (position_stays_in_plane ["2", "3", "4"] diagonal hs hp ht).1⟩

theorem new_valid (startX startY v : ℝ) (name : String) (tx0 ty0 : ℝ) (hv : 0 ≤ v)
    (hp : inPlane startX startY) :
    Entity.new startX startY v name tx0 ty0 =
      .ok { x := startX, y := startY, targetX := tx0, targetY := ty0, speed := v,
            isMoving := true, displayName := name, lastThreadID := "Main" } := by
  have hcond : ¬ (startX < 0 ∨ startX > SIM_WIDTH ∨ startY < 0 ∨ startY > SIM_HEIGHT) := by
    unfold inPlane at hp
    push_neg
    exact hp
  simp only [Entity.new, if_neg (not_lt.mpr hv), if_neg hcond]

theorem new_invalid (startX startY v : ℝ) (name : String) (tx0 ty0 : ℝ)
    (h : ¬ (0 ≤ v ∧ inPlane startX startY)) :
    ∃ ex, Entity.new startX startY v name tx0 ty0 = .error ex := by
  unfold Entity.new
  split_ifs with hv hout
  · exact ⟨_, rfl⟩
  · exact ⟨_, rfl⟩
  · exfalso
    apply h
    push_neg at hout
    exact ⟨not_lt.mp hv, hout⟩

theorem isInRect_iff (px py minX maxX minY maxY : ℝ) :
    isInRect px py minX maxX minY maxY = true ↔
      minX ≤ px ∧ px ≤ maxX ∧ minY ≤ py ∧ py ≤ maxY := by
  simp [isInRect]

theorem half_width : SIM_WIDTH / 2.0 = 50 := by norm_num [SIM_WIDTH]

theorem half_height : SIM_HEIGHT / 2.0 = 50 := by norm_num [SIM_HEIGHT]

theorem legal_inside (startX startY v : ℝ) (d : Draw) (hv : 0 ≤ v)
    (hp : inPlane startX startY)
    (hz : 0 ≤ startX ∧ startX ≤ 50 ∧ 0 ≤ startY ∧ startY ≤ 50) :
    LegalEntity.new startX startY v d =
      .ok { x := startX, y := startY, targetX := startX, targetY := startY, speed := v,
            isMoving := false, displayName := "Legal Entity", lastThreadID := "Main" } := by
  have hrect : isInRect startX startY 0 (SIM_WIDTH / 2.0) 0 (SIM_HEIGHT / 2.0) = true := by
    rw [isInRect_iff, half_width, half_height]; exact hz
  simp only [LegalEntity.new, new_valid startX startY v _ d.tx0 d.ty0 hv hp, hrect, if_true]

theorem legal_outside (startX startY v : ℝ) (d : Draw) (hv : 0 ≤ v)
    (hp : inPlane startX startY)
    (hz : ¬ (0 ≤ startX ∧ startX ≤ 50 ∧ 0 ≤ startY ∧ startY ≤ 50)) :
    LegalEntity.new startX startY v d =
      .ok { x := startX, y := startY, targetX := d.randX, targetY := d.randY, speed := v,
            isMoving := true, displayName := "Legal Entity", lastThreadID := "Main" } := by
  have hrect : ¬ isInRect startX startY 0 (SIM_WIDTH / 2.0) 0 (SIM_HEIGHT / 2.0) = true := by
    rw [isInRect_iff, half_width, half_height]; exact hz
  simp only [LegalEntity.new, new_valid startX startY v _ d.tx0 d.ty0 hv hp, hrect,
    Bool.false_eq_true, if_false]

theorem physical_inside (startX startY v : ℝ) (d : Draw) (hv : 0 ≤ v)
    (hp : inPlane startX startY)
    (hz : 50 ≤ startX ∧ startX ≤ 100 ∧ 50 ≤ startY ∧ startY ≤ 100) :
    PhysicalEntity.new startX startY v d =
      .ok { x := startX, y := startY, targetX := startX, targetY := startY, speed := v,
            isMoving := false, displayName := "Physical Entity", lastThreadID := "Main" } := by
  have hrect : isInRect startX startY (SIM_WIDTH / 2.0) SIM_WIDTH (SIM_HEIGHT / 2.0)
      SIM_HEIGHT = true := by
    rw [isInRect_iff, half_width, half_height]
    have hW : SIM_WIDTH = 100 := by norm_num [SIM_WIDTH]
    have hH : SIM_HEIGHT = 100 := by norm_num [SIM_HEIGHT]
    rw [hW, hH]; exact hz
  simp only [PhysicalEntity.new, new_valid startX startY v _ d.tx0 d.ty0 hv hp, hrect,
    if_true]

theorem physical_outside (startX startY v : ℝ) (d : Draw) (hv : 0 ≤ v)
    (hp : inPlane startX startY)
    (hz : ¬ (50 ≤ startX ∧ startX ≤ 100 ∧ 50 ≤ startY ∧ startY ≤ 100)) :
    PhysicalEntity.new startX startY v d =
      .ok { x := startX, y := startY, targetX := d.randX, targetY := d.randY, speed := v,
            isMoving := true, displayName := "Physical Entity", lastThreadID := "Main" } := by
  have hrect : ¬ isInRect startX startY (SIM_WIDTH / 2.0) SIM_WIDTH (SIM_HEIGHT / 2.0)
      SIM_HEIGHT = true := by
    rw [isInRect_iff, half_width, half_height]
    have hW : SIM_WIDTH = 100 := by norm_num [SIM_WIDTH]
    have hH : SIM_HEIGHT = 100 := by norm_num [SIM_HEIGHT]
    rw [hW, hH]; exact hz
  simp only [PhysicalEntity.new, new_valid startX startY v _ d.tx0 d.ty0 hv hp, hrect,
    Bool.false_eq_true, if_false]

theorem inPlane_iff (px py : ℝ) :
    inPlane px py ↔ 0 ≤ px ∧ px ≤ 100 ∧ 0 ≤ py ∧ py ≤ 100 := by
  have hW : SIM_WIDTH = 100 := by norm_num [SIM_WIDTH]
  have hH : SIM_HEIGHT = 100 := by norm_num [SIM_HEIGHT]
  unfold inPlane
  rw [hW, hH]

/-- C18: for a valid start and speed, a `LegalEntity` (zone [0,50] x [0,50]) or
`PhysicalEntity` (zone [50,100] x [50,100]) that starts inside its zone, boundaries
included, is constructed with target = start and the flag false, and its position is the
start after any number of calls of `move`; one that starts outside its zone is
constructed with the flag true and the drawn point as target, which lies in the zone and
in the plane whenever the draws lie in the requested ranges. -/
theorem zone_classification (startX startY v : ℝ) (d : Draw) (hv : 0 ≤ v)
    (hp : inPlane startX startY) :
    ((0 ≤ startX ∧ startX ≤ 50 ∧ 0 ≤ startY ∧ startY ≤ 50) →
      ∃ e, LegalEntity.new startX startY v d = .ok e ∧
        e.x = startX ∧ e.y = startY ∧ e.targetX = startX ∧ e.targetY = startY ∧
        e.isMoving = false ∧
        ∀ tids : List String, (e.moveN tids).x = startX ∧ (e.moveN tids).y = startY ∧
          (e.moveN tids).isMoving = false) ∧
    (¬ (0 ≤ startX ∧ startX ≤ 50 ∧ 0 ≤ startY ∧ startY ≤ 50) →
      ∃ e, LegalEntity.new startX startY v d = .ok e ∧
        e.x = startX ∧ e.y = startY ∧ e.targetX = d.randX ∧ e.targetY = d.randY ∧
        e.isMoving = true ∧
        ((0 ≤ d.randX ∧ d.randX ≤ 50) → (0 ≤ d.randY ∧ d.randY ≤ 50) →
          (0 ≤ e.targetX ∧ e.targetX ≤ 50 ∧ 0 ≤ e.targetY ∧ e.targetY ≤ 50) ∧
            inPlane e.targetX e.targetY)) ∧
    ((50 ≤ startX ∧ startX ≤ 100 ∧ 50 ≤ startY ∧ startY ≤ 100) →
      ∃ e, PhysicalEntity.new startX startY v d = .ok e ∧
        e.x = startX ∧ e.y = startY ∧ e.targetX = startX ∧ e.targetY = startY ∧
        e.isMoving = false ∧
        ∀ tids : List String, (e.moveN tids).x = startX ∧ (e.moveN tids).y = startY ∧
          (e.moveN tids).isMoving = false) ∧
    (¬ (50 ≤ startX ∧ startX ≤ 100 ∧ 50 ≤ startY ∧ startY ≤ 100) →
      ∃ e, PhysicalEntity.new startX startY v d = .ok e ∧
        e.x = startX ∧ e.y = startY ∧ e.targetX = d.randX ∧ e.targetY = d.randY ∧
        e.isMoving = true ∧
        ((50 ≤ d.randX ∧ d.randX ≤ 100) → (50 ≤ d.randY ∧ d.randY ≤ 100) →
          (50 ≤ e.targetX ∧ e.targetX ≤ 100 ∧ 50 ≤ e.targetY ∧ e.targetY ≤ 100) ∧
            inPlane e.targetX e.targetY)) := by
  have still : ∀ e : Entity, e.isMoving = false → ∀ tids : List String,
      (e.moveN tids).x = e.x ∧ (e.moveN tids).y = e.y ∧ (e.moveN tids).isMoving = false := by
    intro e h tids
    obtain ⟨h1, h2, h3⟩ := moveN_idle tids e h
    exact ⟨h2, h3, h1⟩
  refine ⟨?_, ?_, ?_, ?_⟩
  · intro hz
    exact ⟨_, legal_inside startX startY v d hv hp hz, rfl, rfl, rfl, rfl, rfl,
      still _ rfl⟩
  · intro hz
    refine ⟨_, legal_outside startX startY v d hv hp hz, rfl, rfl, rfl, rfl, rfl, ?_⟩
    intro hx hy
    refine ⟨⟨hx.1, hx.2, hy.1, hy.2⟩, ?_⟩
    rw [inPlane_iff]
    exact ⟨hx.1, by linarith [hx.2], hy.1, by linarith [hy.2]⟩
  · intro hz
    exact ⟨_, physical_inside startX startY v d hv hp hz, rfl, rfl, rfl, rfl, rfl,
      still _ rfl⟩
  · intro hz
    refine ⟨_, physical_outside startX startY v d hv hp hz, rfl, rfl, rfl, rfl, rfl, ?_⟩
    intro hx hy
    refine ⟨⟨hx.1, hx.2, hy.1, hy.2⟩, ?_⟩
    rw [inPlane_iff]
    exact ⟨by linarith [hx.1], hx.2, by linarith [hy.1], hy.2⟩

theorem zone_classification_witness :
    (0 : ℝ) ≤ 8 ∧ inPlane 50 50 ∧
      (∃ e, LegalEntity.new 50 50 8 (cornerDraws 0) = .ok e ∧ e.isMoving = false) ∧
      (∃ e, PhysicalEntity.new 50 50 8 (cornerDraws 1) = .ok e ∧ e.isMoving = false) :=
  have hv : (0 : ℝ) ≤ 8 := by norm_num
  have hp : inPlane 50 50 := (inPlane_iff 50 50).mpr (by norm_num)
  have h := zone_classification 50 50 8 (cornerDraws 0) hv hp
  have h' := zone_classification 50 50 8 (cornerDraws 1) hv hp
  ⟨hv, hp,
    (h.1 (by norm_num)).imp (fun _ he => ⟨he.1, he.2.2.2.2.2.1⟩),
    (h'.2.2.1 (by norm_num)).imp (fun _ he => ⟨he.1, he.2.2.2.2.2.1⟩)⟩

/-! ## The construction phase of `main` -/

/-- A request constructs an entity exactly when its speed is non-negative and its start
lies in the plane. -/
theorem construct_ok_iff (r : Request) :
    (∃ e, r.construct = .ok e) ↔ 0 ≤ r.v ∧ inPlane r.startX r.startY := by
  constructor
  · rintro ⟨e, he⟩
    by_contra hbad
    cases hk : r.kind with
    | legal =>
      obtain ⟨ex, hex⟩ := new_invalid r.startX r.startY r.v "Legal Entity" r.draw.tx0
        r.draw.ty0 hbad
      simp [Request.construct, hk, LegalEntity.new, hex] at he
    | physical =>
      obtain ⟨ex, hex⟩ := new_invalid r.startX r.startY r.v "Physical Entity" r.draw.tx0
        r.draw.ty0 hbad
      simp [Request.construct, hk, PhysicalEntity.new, hex] at he
  · rintro ⟨hv, hp⟩
    cases hk : r.kind with
    | legal =>
      by_cases hz : 0 ≤ r.startX ∧ r.startX ≤ 50 ∧ 0 ≤ r.startY ∧ r.startY ≤ 50
      · exact ⟨_, by simp only [Request.construct, hk]; exact legal_inside _ _ _ _ hv hp hz⟩
      · exact ⟨_, by simp only [Request.construct, hk]; exact legal_outside _ _ _ _ hv hp hz⟩
    | physical =>
      by_cases hz : 50 ≤ r.startX ∧ r.startX ≤ 100 ∧ 50 ≤ r.startY ∧ r.startY ≤ 100
      · exact ⟨_, by
          simp only [Request.construct, hk]; exact physical_inside _ _ _ _ hv hp hz⟩
      · exact ⟨_, by
          simp only [Request.construct, hk]; exact physical_outside _ _ _ _ hv hp hz⟩

theorem buildEntities_ok (r : Request) (rest : List Request) (e : Entity)
    (h : r.construct = .ok e) : buildEntities (r :: rest) = e :: buildEntities rest := by
  simp only [buildEntities, h]

theorem buildEntities_error (r : Request) (rest : List Request) (ex : SimulationException)
    (h : r.construct = .error ex) : buildEntities (r :: rest) = [] := by
  simp only [buildEntities, h]

/-- When every request constructs, the collection holds their entities in order. -/
theorem buildEntities_all (reqs : List Request)
    (h : ∀ r ∈ reqs, ∃ e, r.construct = .ok e) :
    List.Forall₂ (fun r e => r.construct = .ok e) reqs (buildEntities reqs) := by
  induction reqs with
  | nil => exact List.Forall₂.nil
  | cons r rest ih =>
    obtain ⟨e, he⟩ := h r (List.mem_cons_self r rest)
    rw [buildEntities_ok r rest e he]
    exact List.Forall₂.cons he (ih (fun r' hr' => h r' (List.mem_cons_of_mem r hr')))

/-- Everything after the first failing request is dropped. -/
theorem buildEntities_stops (pre : List Request) (bad : Request) (post : List Request)
    (h : ∀ r ∈ pre, ∃ e, r.construct = .ok e) (hbad : ∃ ex, bad.construct = .error ex) :
    buildEntities (pre ++ bad :: post) = buildEntities pre := by
  induction pre with
  | nil =>
    obtain ⟨ex, hex⟩ := hbad
    rw [List.nil_append, buildEntities_error bad post ex hex]
    rfl
  | cons r rest ih =>
    obtain ⟨e, he⟩ := h r (List.mem_cons_self r rest)
    rw [List.cons_append, buildEntities_ok r _ e he, buildEntities_ok r rest e he,
      ih (fun r' hr' => h r' (List.mem_cons_of_mem r hr'))]

theorem goodRequest_ok :
    goodRequest.construct =
      .ok { x := 10, y := 10, targetX := 75, targetY := 75, speed := 8, isMoving := true,
            displayName := "Physical Entity", lastThreadID := "Main" } := by
  have hp : inPlane 10 10 := (inPlane_iff 10 10).mpr (by norm_num)
  simp only [Request.construct, goodRequest]
  exact physical_outside 10 10 8 _ (by norm_num) hp (by norm_num)

theorem badRequest_error :
    badRequest.construct = .error (.physicsParameter "Speed" (-1)) := by
  simp [Request.construct, badRequest, LegalEntity.new, Entity.new]

/-- C12, as stated, fails: a request with valid parameters that follows a failing request
is not constructed, the collection stays empty. -/
theorem valid_request_after_failure_dropped :
    (0 ≤ goodRequest.v ∧ inPlane goodRequest.startX goodRequest.startY) ∧
      (∃ e, goodRequest.construct = .ok e) ∧
      (∃ ex, badRequest.construct = .error ex) ∧
      buildEntities [badRequest, goodRequest] = [] := by
  refine ⟨(construct_ok_iff goodRequest).mp ⟨_, goodRequest_ok⟩, ⟨_, goodRequest_ok⟩,
    ⟨_, badRequest_error⟩, ?_⟩
  exact buildEntities_error badRequest [goodRequest] _ badRequest_error

/-- C12 (amended): a construction failure is caught and the run goes on with the entities
constructed before it.  A request constructs exactly when its speed is non-negative and
its start is in the plane; when every request is valid the collection holds all their
entities in order, and when a request fails after valid ones the collection holds exactly
the entities of the requests before it, the requests after it not being constructed. -/
theorem construction_keeps_requests_before_failure :
    (∀ r : Request, (∃ e, r.construct = .ok e) ↔ 0 ≤ r.v ∧ inPlane r.startX r.startY) ∧
    (∀ reqs : List Request, (∀ r ∈ reqs, 0 ≤ r.v ∧ inPlane r.startX r.startY) →
      List.Forall₂ (fun r e => r.construct = .ok e) reqs (buildEntities reqs)) ∧
    (∀ (pre : List Request) (bad : Request) (post : List Request),
      (∀ r ∈ pre, 0 ≤ r.v ∧ inPlane r.startX r.startY) →
      ¬ (0 ≤ bad.v ∧ inPlane bad.startX bad.startY) →
        buildEntities (pre ++ bad :: post) = buildEntities pre ∧
        List.Forall₂ (fun r e => r.construct = .ok e) pre
          (buildEntities (pre ++ bad :: post)) ∧
        (buildEntities (pre ++ bad :: post)).length = pre.length) := by
  refine ⟨construct_ok_iff, ?_, ?_⟩
  · intro reqs h
    exact buildEntities_all reqs (fun r hr => (construct_ok_iff r).mpr (h r hr))
  · intro pre bad post h hbad
    have hpre : ∀ r ∈ pre, ∃ e, r.construct = .ok e := fun r hr =>
      (construct_ok_iff r).mpr (h r hr)
    have hfail : ∃ ex, bad.construct = .error ex := by
      cases hc : bad.construct with
      | error ex => exact ⟨ex, rfl⟩
      | ok e => exact absurd ((construct_ok_iff bad).mp ⟨e, hc⟩) hbad
    have hstop := buildEntities_stops pre bad post hpre hfail
    have hall := buildEntities_all pre hpre
    rw [hstop]
    exact ⟨rfl, hall, hall.length_eq.symm⟩

theorem construction_keeps_requests_before_failure_witness :
    (∀ r ∈ [goodRequest], 0 ≤ r.v ∧ inPlane r.startX r.startY) ∧
      ¬ (0 ≤ badRequest.v ∧ inPlane badRequest.startX badRequest.startY) ∧
      (buildEntities ([goodRequest] ++ badRequest :: [goodRequest])).length = 1 :=
  have hgood : ∀ r ∈ [goodRequest], 0 ≤ r.v ∧ inPlane r.startX r.startY := by
    intro r hr
    rw [List.mem_singleton] at hr
    rw [hr]
    exact (construct_ok_iff goodRequest).mp ⟨_, goodRequest_ok⟩
  have hbad : ¬ (0 ≤ badRequest.v ∧ inPlane badRequest.startX badRequest.startY) := by
    intro h
    have hv : (0 : ℝ) ≤ -1 := h.1
    norm_num at hv
  ⟨hgood, hbad,
    (construction_keeps_requests_before_failure.2.2 [goodRequest] badRequest [goodRequest]
      hgood hbad).2.2⟩

/-! ## The scenario of `main` -/

theorem legalZone_iff (px py : ℝ) :
    legalZone px py ↔ 0 ≤ px ∧ px ≤ 50 ∧ 0 ≤ py ∧ py ≤ 50 := by
  unfold legalZone
  rw [isInRect_iff, half_width, half_height]

theorem physicalZone_iff (px py : ℝ) :
    physicalZone px py ↔ 50 ≤ px ∧ px ≤ 100 ∧ 50 ≤ py ∧ py ≤ 100 := by
  have hW : SIM_WIDTH = 100 := by norm_num [SIM_WIDTH]
  have hH : SIM_HEIGHT = 100 := by norm_num [SIM_HEIGHT]
  unfold physicalZone
  rw [isInRect_iff, half_width, half_height, hW, hH]

theorem defaultSpeed_eq : defaultSpeed = 8 := by norm_num [defaultSpeed]

/-- The four entities `main` starts with. -/
theorem mainEntities_eq (env : ℕ → Draw) :
    mainEntities env =
      [ { x := 90, y := 90, targetX := (env 0).randX, targetY := (env 0).randY, speed := 8,
          isMoving := true, displayName := "Legal Entity", lastThreadID := "Main" },
        { x := 10, y := 10, targetX := (env 1).randX, targetY := (env 1).randY, speed := 8,
          isMoving := true, displayName := "Physical Entity", lastThreadID := "Main" },
        { x := 80, y := 20, targetX := (env 2).randX, targetY := (env 2).randY, speed := 8,
          isMoving := true, displayName := "Legal Entity", lastThreadID := "Main" },
        { x := 20, y := 80, targetX := (env 3).randX, targetY := (env 3).randY, speed := 8,
          isMoving := true, displayName := "Physical Entity", lastThreadID := "Main" } ] := by
  have hv : (0 : ℝ) ≤ 8 := by norm_num
  have h0 : ({ kind := .legal, startX := 90, startY := 90, v := 8, draw := env 0 } :
      Request).construct = _ :=
    legal_outside 90 90 8 (env 0) hv ((inPlane_iff _ _).mpr (by norm_num)) (by norm_num)
  have h1 : ({ kind := .physical, startX := 10, startY := 10, v := 8, draw := env 1 } :
      Request).construct = _ :=
    physical_outside 10 10 8 (env 1) hv ((inPlane_iff _ _).mpr (by norm_num)) (by norm_num)
  have h2 : ({ kind := .legal, startX := 80, startY := 20, v := 8, draw := env 2 } :
      Request).construct = _ :=
    legal_outside 80 20 8 (env 2) hv ((inPlane_iff _ _).mpr (by norm_num)) (by norm_num)
  have h3 : ({ kind := .physical, startX := 20, startY := 80, v := 8, draw := env 3 } :
      Request).construct = _ :=
    physical_outside 20 80 8 (env 3) hv ((inPlane_iff _ _).mpr (by norm_num)) (by norm_num)
  unfold mainEntities mainRequests
  rw [defaultSpeed_eq]
  rw [buildEntities_ok _ _ _ h0, buildEntities_ok _ _ _ h1, buildEntities_ok _ _ _ h2,
    buildEntities_ok _ _ _ h3]
  rfl

theorem slotThreads_succ (tids : ℕ → ℕ → String) (k i : ℕ) :
    slotThreads tids (k + 1) i = slotThreads tids k i ++ [tids k i] := by
  simp [slotThreads, List.range_succ]

theorem length_slotThreads (tids : ℕ → ℕ → String) (k i : ℕ) :
    (slotThreads tids k i).length = k := by
  simp [slotThreads]

/-- Slot `i` after `k` steps holds the entity it started with, moved `k` times. -/
theorem getElem?_afterSteps (tids : ℕ → ℕ → String) (es : List Entity) (i : ℕ) :
    ∀ k, (afterSteps tids k es)[i]? =
      (es[i]?).map (fun e => e.moveN (slotThreads tids k i)) := by
  intro k
  induction k with
  | zero =>
    rw [afterSteps_zero]
    cases es[i]? <;> rfl
  | succ k ih =>
    rw [afterSteps_succ, getElem?_runStep, ih, slotThreads_succ]
    cases es[i]? with
    | none => rfl
    | some e =>
      simp only [Option.map_some']
      rw [moveN_concat]

/-- An entity whose distance exceeds `K` times its speed is moving after up to `K` calls. -/
theorem en_route_within (e : Entity) (hm : e.isMoving = true) (hs : 0 ≤ e.speed) (K : ℕ)
    (hK : (K : ℝ) * e.speed < e.distance) (ts : List String) (hlen : ts.length ≤ K) :
    (e.moveN ts).isMoving = true := by
  have hle : (ts.length : ℝ) * e.speed ≤ (K : ℝ) * e.speed :=
    mul_le_mul_of_nonneg_right (Nat.cast_le.mpr hlen) hs
  exact (moveN_en_route ts e hm hs (lt_of_le_of_lt hle hK)).1

/-- While some slot holds such an entity, the flag `active` stays true. -/
theorem active_while_en_route (tids : ℕ → ℕ → String) (es : List Entity) (i : ℕ)
    (e : Entity) (hget : es[i]? = some e) (hm : e.isMoving = true) (hs : 0 ≤ e.speed)
    (K : ℕ) (hK : (K : ℝ) * e.speed < e.distance) (j : ℕ) (hj : j ≤ K) :
    (afterSteps tids j es)[i]? = some (e.moveN (slotThreads tids j i)) ∧
      (e.moveN (slotThreads tids j i)).isMoving = true ∧
      computeActive (afterSteps tids j es) = true := by
  have hslot : (afterSteps tids j es)[i]? = some (e.moveN (slotThreads tids j i)) := by
    rw [getElem?_afterSteps, hget]
    rfl
  have hmov : (e.moveN (slotThreads tids j i)).isMoving = true :=
    en_route_within e hm hs K hK _ (by rw [length_slotThreads]; exact hj)
  refine ⟨hslot, hmov, ?_⟩
  rw [computeActive_eq_true]
  exact ⟨_, List.mem_iff_getElem?.mpr ⟨i, hslot⟩, hmov⟩

theorem stepsExecuted_le (tids : ℕ → ℕ → String) (m : ℕ) (es : List Entity) :
    stepsExecuted tids m es ≤ m := by
  by_contra hcon
  exact absurd ((stepsExecuted_spec tids m es).2.1 m (not_le.mp hcon)).1 (lt_irrefl m)

/-- The loop runs at least `K` steps when the flag is true after each of the first
`K - 1` steps and the ceiling allows `K` steps. -/
theorem stepsExecuted_ge (tids : ℕ → ℕ → String) (m K : ℕ) (es : List Entity)
    (hKm : K ≤ m)
    (hact : ∀ j, 1 ≤ j → j < K → computeActive (afterSteps tids j es) = true) :
    K ≤ stepsExecuted tids m es := by
  by_contra hcon
  have hlt : stepsExecuted tids m es < K := not_le.mp hcon
  obtain ⟨h1, h2⟩ := (stepsExecuted_spec tids m es).2.2 (lt_of_lt_of_le hlt hKm)
  have := hact _ h1 hlt
  rw [h2] at this
  exact Bool.noConfusion this

theorem sqrt_ge_of_sq_le (a b c : ℝ) (hc : 0 ≤ c) (h : c * c ≤ a * a + b * b) :
    c ≤ Real.sqrt (a * a + b * b) := by
  rw [Real.le_sqrt hc (add_nonneg (mul_self_nonneg a) (mul_self_nonneg b)), sq]
  exact h

theorem sqrt_gt_of_sq_lt (a b c : ℝ) (hc : 0 ≤ c) (h : c * c < a * a + b * b) :
    c < Real.sqrt (a * a + b * b) := by
  rw [Real.lt_sqrt hc, sq]
  exact h

theorem forty_sqrt_two : (56 : ℝ) < 40 * Real.sqrt 2 := by
  have := sqrt_two_lower
  linarith

theorem sq_ge_of_far (a lo : ℝ) (hlo : 0 ≤ lo) (h : lo ≤ a ∨ a ≤ -lo) : lo * lo ≤ a * a := by
  rcases h with h | h
  · exact mul_self_le_mul_self hlo h
  · have : lo * lo ≤ (-a) * (-a) := mul_self_le_mul_self hlo (by linarith)
    linarith [this]

/-- Slot 0 of `main`: the `LegalEntity` that starts at (90,90). -/
theorem main_first (env : ℕ → Draw) :
    ∃ e, (mainEntities env)[0]? = some e ∧ e.isMoving = true ∧ e.speed = 8 ∧
      LegalEntity.new 90 90 defaultSpeed (env 0) = .ok e ∧
      e.targetX = (env 0).randX ∧ e.targetY = (env 0).randY ∧
      e.distance = Real.sqrt (((env 0).randX - 90) * ((env 0).randX - 90) +
        ((env 0).randY - 90) * ((env 0).randY - 90)) := by
  refine ⟨{ x := 90, y := 90, targetX := (env 0).randX, targetY := (env 0).randY,
            speed := 8, isMoving := true, displayName := "Legal Entity",
            lastThreadID := "Main" }, ?_, rfl, rfl, ?_, rfl, rfl, rfl⟩
  · rw [mainEntities_eq]
    rfl
  rw [defaultSpeed_eq]
  exact legal_outside 90 90 8 (env 0) (by norm_num) ((inPlane_iff _ _).mpr (by norm_num))
    (by norm_num)

theorem mainRequests_valid (env : ℕ → Draw) :
    ∀ r ∈ mainRequests env, ∃ e, r.construct = .ok e := by
  intro r hr
  rw [construct_ok_iff, inPlane_iff]
  simp only [mainRequests, List.mem_cons, List.mem_singleton, List.not_mem_nil,
    or_false] at hr
  rcases hr with rfl | rfl | rfl | rfl <;>
    exact ⟨by rw [defaultSpeed_eq]; norm_num, by norm_num⟩

/-- Distances of the four entities of `main` to targets drawn inside the zones. -/
theorem main_distances (env : ℕ → Draw) (hz : zoneDraws env) :
    (∀ e ∈ mainEntities env, 30 ≤ e.distance) ∧
      (∀ e, (mainEntities env)[0]? = some e ∨ (mainEntities env)[1]? = some e →
        40 * Real.sqrt 2 ≤ e.distance) := by
  obtain ⟨z0, z1, z2, z3⟩ := hz
  rw [legalZone_iff] at z0 z2
  rw [physicalZone_iff] at z1 z3
  have far0 : 40 * Real.sqrt 2 ≤ Real.sqrt (((env 0).randX - 90) * ((env 0).randX - 90) +
      ((env 0).randY - 90) * ((env 0).randY - 90)) := by
    rw [← sqrt_3200]
    apply Real.sqrt_le_sqrt
    have hx := sq_ge_of_far ((env 0).randX - 90) 40 (by norm_num) (Or.inr (by linarith))
    have hy := sq_ge_of_far ((env 0).randY - 90) 40 (by norm_num) (Or.inr (by linarith))
    linarith
  have far1 : 40 * Real.sqrt 2 ≤ Real.sqrt (((env 1).randX - 10) * ((env 1).randX - 10) +
      ((env 1).randY - 10) * ((env 1).randY - 10)) := by
    rw [← sqrt_3200]
    apply Real.sqrt_le_sqrt
    have hx := sq_ge_of_far ((env 1).randX - 10) 40 (by norm_num) (Or.inl (by linarith))
    have hy := sq_ge_of_far ((env 1).randY - 10) 40 (by norm_num) (Or.inl (by linarith))
    linarith
  have far2 : 30 ≤ Real.sqrt (((env 2).randX - 80) * ((env 2).randX - 80) +
      ((env 2).randY - 20) * ((env 2).randY - 20)) := by
    apply sqrt_ge_of_sq_le _ _ _ (by norm_num)
    have hx := sq_ge_of_far ((env 2).randX - 80) 30 (by norm_num) (Or.inr (by linarith))
    have hy := mul_self_nonneg ((env 2).randY - 20)
    linarith
  have far3 : 30 ≤ Real.sqrt (((env 3).randX - 20) * ((env 3).randX - 20) +
      ((env 3).randY - 80) * ((env 3).randY - 80)) := by
    apply sqrt_ge_of_sq_le _ _ _ (by norm_num)
    have hx := sq_ge_of_far ((env 3).randX - 20) 30 (by norm_num) (Or.inl (by linarith))
    have hy := mul_self_nonneg ((env 3).randY - 80)
    linarith
  have h56 := forty_sqrt_two
  rw [mainEntities_eq]
  constructor
  · intro e he
    simp only [List.mem_cons, List.mem_singleton, List.not_mem_nil, or_false] at he
    rcases he with rfl | rfl | rfl | rfl
    · exact le_trans (by linarith) far0
    · exact le_trans (by linarith) far1
    · exact far2
    · exact far3
  · intro e he
    rcases he with he | he
    · have : e = _ := (Option.some.inj he).symm
      rw [this]
      exact far0
    · have : e = _ := (Option.some.inj he).symm
      rw [this]
      exact far1

/-- C20: in the scenario of `main` all four constructions succeed, no entity starts in
its own zone and all four start movement-active; for targets drawn inside the zones every
entity starts at distance at least 30 from its target, the entities at (90,90) and (10,10)
at distance at least 40 * sqrt 2 > 56, and with speed 8 the loop executes at least 8 and at
most 15 steps. -/
theorem main_scenario_steps :
    (∀ env : ℕ → Draw,
      List.Forall₂ (fun r e => r.construct = .ok e) (mainRequests env) (mainEntities env) ∧
      (mainEntities env).length = 4 ∧
      (∀ e ∈ mainEntities env, e.isMoving = true ∧ e.speed = 8)) ∧
    (¬ legalZone 90 90 ∧ ¬ physicalZone 10 10 ∧ ¬ legalZone 80 20 ∧ ¬ physicalZone 20 80) ∧
    (∀ env : ℕ → Draw, zoneDraws env →
      (∀ e ∈ mainEntities env, 30 ≤ e.distance) ∧
      (∀ e, (mainEntities env)[0]? = some e ∨ (mainEntities env)[1]? = some e →
        40 * Real.sqrt 2 ≤ e.distance) ∧
      (56 : ℝ) < 40 * Real.sqrt 2) ∧
    (∀ (tids : ℕ → ℕ → String) (env : ℕ → Draw), zoneDraws env →
      8 ≤ (mainLoop tids (mainEntities env)).step ∧
        (mainLoop tids (mainEntities env)).step ≤ 15) := by
  refine ⟨?_, ?_, ?_, ?_⟩
  · intro env
    refine ⟨buildEntities_all _ (mainRequests_valid env), ?_, ?_⟩
    · rw [mainEntities_eq]; rfl
    · intro e he
      rw [mainEntities_eq] at he
      simp only [List.mem_cons, List.mem_singleton, List.not_mem_nil, or_false] at he
      rcases he with rfl | rfl | rfl | rfl <;> exact ⟨rfl, rfl⟩
  · rw [legalZone_iff, legalZone_iff, physicalZone_iff, physicalZone_iff]
    refine ⟨?_, ?_, ?_, ?_⟩ <;> norm_num
  · intro env hz
    exact ⟨(main_distances env hz).1, (main_distances env hz).2, forty_sqrt_two⟩
  · intro tids env hz
    obtain ⟨e, hget, hm, hs, _, _, _, _⟩ := main_first env
    have hfar : 40 * Real.sqrt 2 ≤ e.distance := (main_distances env hz).2 e (Or.inl hget)
    have h56 := forty_sqrt_two
    have hK : ((7 : ℕ) : ℝ) * e.speed < e.distance := by
      rw [hs]; norm_num; linarith
    have hact : ∀ j, 1 ≤ j → j < 8 →
        computeActive (afterSteps tids j (mainEntities env)) = true := by
      intro j _ hj
      exact (active_while_en_route tids _ 0 e hget hm (by rw [hs]; norm_num) 7 hK j
        (by omega)).2.2
    exact ⟨stepsExecuted_ge tids 15 8 _ (by decide) hact, stepsExecuted_le tids 15 _⟩

theorem cornerDraws_zone : zoneDraws cornerDraws := by
  unfold zoneDraws
  rw [legalZone_iff, legalZone_iff, physicalZone_iff, physicalZone_iff]
  simp only [cornerDraws]
  norm_num

theorem main_scenario_steps_witness :
    zoneDraws cornerDraws ∧
      8 ≤ (mainLoop (fun _ _ => "2") (mainEntities cornerDraws)).step ∧
      (mainLoop (fun _ _ => "2") (mainEntities cornerDraws)).step ≤ 15 :=
  ⟨cornerDraws_zone, main_scenario_steps.2.2.2 (fun _ _ => "2") cornerDraws cornerDraws_zone⟩

/-- C19: the ceiling of 15 steps does not guarantee convergence.  When the constructor of
the `LegalEntity` at (90,90) draws a target in [0,5] x [0,5], for example (0,0), which lies
in its zone, the entity is more than 15 * 8 away from it and is still movement-active
after up to 15 calls of `move`; the loop of `main` then stops at `step = 15` with `active`
true and slot 0 still moving. -/
theorem ceiling_reached_still_moving (tids : ℕ → ℕ → String) (env : ℕ → Draw)
    (hx : 0 ≤ (env 0).randX ∧ (env 0).randX ≤ 5)
    (hy : 0 ≤ (env 0).randY ∧ (env 0).randY ≤ 5) :
    legalZone (env 0).randX (env 0).randY ∧
    (∃ e, LegalEntity.new 90 90 defaultSpeed (env 0) = .ok e ∧
      (mainEntities env)[0]? = some e ∧
      e.targetX = (env 0).randX ∧ e.targetY = (env 0).randY ∧
      15 * e.speed < e.distance ∧
      ∀ ts : List String, ts.length ≤ 15 → (e.moveN ts).isMoving = true) ∧
    (mainLoop tids (mainEntities env)).step = 15 ∧
    (mainLoop tids (mainEntities env)).active = true ∧
    (∃ e, (mainLoop tids (mainEntities env)).entities[0]? = some e ∧
      e.isMoving = true) := by
  obtain ⟨e, hget, hm, hs, hnew, htx, hty, hdist⟩ := main_first env
  have hfar : 15 * e.speed < e.distance := by
    rw [hs, hdist]
    have h120 : (15 : ℝ) * 8 = 120 := by norm_num
    rw [h120]
    apply sqrt_gt_of_sq_lt _ _ _ (by norm_num)
    have h1 := sq_ge_of_far ((env 0).randX - 90) 85 (by norm_num) (Or.inr (by linarith))
    have h2 := sq_ge_of_far ((env 0).randY - 90) 85 (by norm_num) (Or.inr (by linarith))
    linarith
  have hs0 : 0 ≤ e.speed := by rw [hs]; norm_num
  have hK : ((15 : ℕ) : ℝ) * e.speed < e.distance := by
    have hc : ((15 : ℕ) : ℝ) = 15 := by norm_num
    rw [hc]; exact hfar
  have hroute := active_while_en_route tids (mainEntities env) 0 e hget hm hs0 15 hK
  have hsteps : stepsExecuted tids 15 (mainEntities env) = 15 :=
    le_antisymm (stepsExecuted_le tids 15 _)
      (stepsExecuted_ge tids 15 15 _ (le_refl _)
        (fun j _ hj => (hroute j (le_of_lt hj)).2.2))
  have hfinal : mainLoop tids (mainEntities env) =
      (loopBody tids)^[15] (initState (mainEntities env)) := by
    have h := (stepsExecuted_spec tids 15 (mainEntities env)).1
    rw [hsteps] at h
    exact h
  refine ⟨?_, ⟨e, hnew, hget, htx, hty, hfar, ?_⟩, ?_, ?_, ?_⟩
  · rw [legalZone_iff]
    exact ⟨hx.1, by linarith [hx.2], hy.1, by linarith [hy.2]⟩
  · intro ts hlen
    exact en_route_within e hm hs0 15 hK ts hlen
  · exact hsteps
  · rw [hfinal, iterate_active tids _ 15 (by decide)]
    exact (hroute 15 (le_refl _)).2.2
  · rw [hfinal]
    exact ⟨_, (hroute 15 (le_refl _)).1, (hroute 15 (le_refl _)).2.1⟩

theorem ceiling_reached_still_moving_witness :
    (0 ≤ (cornerDraws 0).randX ∧ (cornerDraws 0).randX ≤ 5) ∧
      (0 ≤ (cornerDraws 0).randY ∧ (cornerDraws 0).randY ≤ 5) ∧
      (cornerDraws 0).randX = 0 ∧ (cornerDraws 0).randY = 0 ∧
      (mainLoop (fun _ _ => "2") (mainEntities cornerDraws)).step = 15 ∧
      (mainLoop (fun _ _ => "2") (mainEntities cornerDraws)).active = true :=
  have hx : 0 ≤ (cornerDraws 0).randX ∧ (cornerDraws 0).randX ≤ 5 := by
    simp [cornerDraws]
  have hy : 0 ≤ (cornerDraws 0).randY ∧ (cornerDraws 0).randY ≤ 5 := by
    simp [cornerDraws]
  have h := ceiling_reached_still_moving (fun _ _ => "2") cornerDraws hx hy
  ⟨hx, hy, by simp [cornerDraws], by simp [cornerDraws], h.2.2.1, h.2.2.2.1⟩

/-! ## Double arithmetic

### Rounding -/

namespace Ieee

/-- A real within 1/2 of an integer rounds to that integer. -/
theorem roundHalfEven_near (y : ℝ) (m : ℤ) (h : |y - m| < 1 / 2) : roundHalfEven y = m := by
  rw [abs_lt] at h
  unfold roundHalfEven
  rcases le_or_lt (m : ℝ) y with hym | hym
  · have hfl : ⌊y⌋ = m := Int.floor_eq_iff.mpr ⟨hym, by linarith⟩
    rw [hfl, if_pos (by linarith)]
  · have hfl : ⌊y⌋ = m - 1 := Int.floor_eq_iff.mpr ⟨by push_cast; linarith, by push_cast; linarith⟩
    rw [hfl]
    push_cast
    rw [if_neg (by linarith), if_pos (by linarith)]
    ring

/-- The spacing of the doubles in the binade `[2 ^ 52 / 2 ^ k, 2 ^ 53 / 2 ^ k)` is
`1 / 2 ^ k`. -/
theorem gridExp_binade (x : ℝ) (k : ℕ) (hk : k ≤ 1074) (hlo : (2 : ℝ) ^ 52 / 2 ^ k ≤ x)
    (hhi : x < 2 ^ 53 / 2 ^ k) : gridExp x = -(k : ℤ) := by
  have hpos : 0 < x := lt_of_lt_of_le (by positivity) hlo
  have hlog : Int.log 2 |x| = 52 - (k : ℤ) := by
    rw [abs_of_pos hpos]
    apply le_antisymm
    · have : Int.log 2 x < 52 - (k : ℤ) + 1 := by
        rw [← Int.lt_zpow_iff_log_lt (by norm_num) hpos]
        have h2 : ((2 : ℕ) : ℝ) ^ (52 - (k : ℤ) + 1) = 2 ^ 53 / 2 ^ k := by
          have : (52 - (k : ℤ) + 1) = ((53 : ℕ) : ℤ) - (k : ℕ) := by push_cast; ring
          rw [this, zpow_sub₀ (by norm_num), zpow_natCast, zpow_natCast]
          norm_num
        rw [h2]; exact hhi
      omega
    · rw [← Int.zpow_le_iff_le_log (by norm_num) hpos]
      have h2 : ((2 : ℕ) : ℝ) ^ (52 - (k : ℤ)) = 2 ^ 52 / 2 ^ k := by
        have : (52 - (k : ℤ)) = ((52 : ℕ) : ℤ) - (k : ℕ) := by push_cast; ring
        rw [this, zpow_sub₀ (by norm_num), zpow_natCast, zpow_natCast]
        norm_num
      rw [h2]; exact hlo
  unfold gridExp
  rw [hlog]
  have : (52 - (k : ℤ) - 52) = -(k : ℤ) := by ring
  rw [this]
  apply max_eq_left
  omega

/-- Certificate for one rounding: a real `x` of the binade with spacing `1 / 2 ^ k` that
lies within half a spacing of `m / 2 ^ k` rounds to `m / 2 ^ k`. -/
theorem rnd_cert (x r : ℝ) (m k : ℕ) (hm : m ≤ 2 ^ 53) (hk : k ≤ 1074)
    (hlo : (2 : ℝ) ^ 52 / 2 ^ k ≤ x) (hhi : x < 2 ^ 53 / 2 ^ k)
    (hn1 : m / 2 ^ k - 1 / 2 ^ (k + 1) < x) (hn2 : x < m / 2 ^ k + 1 / 2 ^ (k + 1))
    (hr : r = m / 2 ^ k) :
    rnd x = .fin r := by
  have hnear : |x - m / 2 ^ k| < 1 / 2 ^ (k + 1) := by
    rw [abs_lt]
    constructor <;> linarith
  have hg := gridExp_binade x k hk hlo hhi
  have hpow : (2 : ℝ) ^ (-(k : ℤ)) = 1 / 2 ^ k := by
    rw [zpow_neg, zpow_natCast, one_div]
  have h2k : (0 : ℝ) < 2 ^ k := by positivity
  have hy : |x / (2 : ℝ) ^ (-(k : ℤ)) - ((m : ℤ) : ℝ)| < 1 / 2 := by
    rw [hpow]
    have e1 : x / (1 / 2 ^ k) - ((m : ℤ) : ℝ) = (x - m / 2 ^ k) * 2 ^ k := by
      push_cast
      field_simp
    rw [e1, abs_mul, abs_of_pos h2k]
    have : |x - m / 2 ^ k| * 2 ^ k < 1 / 2 ^ (k + 1) * 2 ^ k :=
      mul_lt_mul_of_pos_right hnear h2k
    have e2 : (1 : ℝ) / 2 ^ (k + 1) * 2 ^ k = 1 / 2 := by
      rw [pow_succ]; field_simp
    linarith
  have hfin : rndFin x = r := by
    unfold rndFin
    rw [hg, roundHalfEven_near _ _ hy, hpow, hr]
    push_cast
    ring
  have hr0 : 0 ≤ r := by rw [hr]; positivity
  have hrle : r ≤ 2 ^ 53 := by
    rw [hr]
    have h1 : (m : ℝ) / 2 ^ k ≤ m := div_le_self (Nat.cast_nonneg m) (one_le_pow₀ (by norm_num))
    have h2 : (m : ℝ) ≤ 2 ^ 53 := by exact_mod_cast hm
    linarith
  have hbig : (2 : ℝ) ^ 53 < 2 ^ (1024 : ℕ) := by
    apply pow_lt_pow_right₀ (by norm_num) (by norm_num)
  unfold rnd
  rw [hfin, if_neg (by linarith), if_neg (by linarith)]

theorem rnd_zero : rnd 0 = .fin 0 := by
  have h0 : rndFin 0 = 0 := by
    unfold rndFin
    rw [zero_div, roundHalfEven_near 0 0 (by norm_num)]
    simp
  unfold rnd
  rw [h0, if_neg (by norm_num), if_neg (by norm_num)]

/-- Certificate for one rounded square root, by comparing squares. -/
theorem rnd_sqrt_cert (q r : ℝ) (m k : ℕ) (hm1 : 1 ≤ m) (hm : m ≤ 2 ^ 53) (hk : k ≤ 1074)
    (hlo : ((2 : ℝ) ^ 52 / 2 ^ k) ^ 2 ≤ q) (hhi : q < ((2 : ℝ) ^ 53 / 2 ^ k) ^ 2)
    (hbelow : (((2 * m - 1 : ℕ) : ℝ) / 2 ^ (k + 1)) ^ 2 < q)
    (habove : q < (((2 * m + 1 : ℕ) : ℝ) / 2 ^ (k + 1)) ^ 2) (hr : r = m / 2 ^ k) :
    rnd (Real.sqrt q) = .fin r := by
  have hq : 0 ≤ q := le_trans (sq_nonneg _) hlo
  have h2k : (0 : ℝ) < 2 ^ k := by positivity
  have e1 : (((2 * m - 1 : ℕ) : ℝ) / 2 ^ (k + 1)) = m / 2 ^ k - 1 / 2 ^ (k + 1) := by
    rw [Nat.cast_sub (by omega)]
    push_cast
    rw [pow_succ]
    field_simp
    ring
  have e2 : (((2 * m + 1 : ℕ) : ℝ) / 2 ^ (k + 1)) = m / 2 ^ k + 1 / 2 ^ (k + 1) := by
    push_cast
    rw [pow_succ]
    field_simp
    ring
  have hb0 : (0 : ℝ) ≤ ((2 * m - 1 : ℕ) : ℝ) / 2 ^ (k + 1) := by positivity
  have ha0 : (0 : ℝ) < ((2 * m + 1 : ℕ) : ℝ) / 2 ^ (k + 1) := by positivity
  apply rnd_cert (Real.sqrt q) r m k hm hk
  · exact Real.le_sqrt_of_sq_le hlo  
  · exact (Real.sqrt_lt' (by positivity)).mpr hhi
  · rw [← e1]
    exact (Real.lt_sqrt hb0).mpr hbelow
  · rw [← e2]
    exact (Real.sqrt_lt' ha0).mpr habove
  · exact hr

theorem sqrt_fin (a : ℝ) (h : 0 ≤ a) : Dbl.sqrt (.fin a) = rnd (Real.sqrt a) := by
  simp only [Dbl.sqrt, if_neg (not_lt.mpr h)]

theorem div_fin (a b : ℝ) (h : b ≠ 0) : Dbl.div (.fin a) (.fin b) = rnd (a / b) := by
  simp only [Dbl.div, if_neg h]

/-- Evaluation of the computed distance from the values of its operations. -/
theorem distance_eval (e : Entity) (dx dy xx yy ss D : Dbl)
    (h1 : Dbl.sub e.targetX e.x = dx) (h2 : Dbl.sub e.targetY e.y = dy)
    (h3 : Dbl.mul dx dx = xx) (h4 : Dbl.mul dy dy = yy) (h5 : Dbl.add xx yy = ss)
    (h6 : Dbl.sqrt ss = D) : e.distance = D := by
  subst h1 h2 h3 h4 h5 h6
  rfl

/-- The distance `move` computes for `overshoot` is its speed. -/
theorem overshoot_distance : overshoot.distance = .fin (6758044955603247 / 2 ^ 46) := by
  have hdx : Dbl.sub (.fin (1042038258426841 / 2 ^ 44)) (.fin 0) =
      .fin (1042038258426841 / 2 ^ 44) :=
    rnd_cert ((1042038258426841 / 2 ^ 44) - 0)
      (1042038258426841 / 2 ^ 44) 8336306067414728 47
      (by norm_num) (by norm_num) (by norm_num) (by norm_num)
      (by norm_num) (by norm_num) (by norm_num)
  have hdy : Dbl.sub (.fin (664944451504581 / 2 ^ 43)) (.fin 0) =
      .fin (664944451504581 / 2 ^ 43) :=
    rnd_cert ((664944451504581 / 2 ^ 43) - 0)
      (664944451504581 / 2 ^ 43) 5319555612036648 46
      (by norm_num) (by norm_num) (by norm_num) (by norm_num)
      (by norm_num) (by norm_num) (by norm_num)
  have hxx : Dbl.mul (.fin (1042038258426841 / 2 ^ 44)) (.fin (1042038258426841 / 2 ^ 44)) =
      .fin (7715383759611739 / 2 ^ 41) :=
    rnd_cert ((1042038258426841 / 2 ^ 44) * (1042038258426841 / 2 ^ 44))
      (7715383759611739 / 2 ^ 41) 7715383759611739 41
      (by norm_num) (by norm_num) (by norm_num) (by norm_num)
      (by norm_num) (by norm_num) (by norm_num)
  have hyy : Dbl.mul (.fin (664944451504581 / 2 ^ 43)) (.fin (664944451504581 / 2 ^ 43)) =
      .fin (6283345379454319 / 2 ^ 40) :=
    rnd_cert ((664944451504581 / 2 ^ 43) * (664944451504581 / 2 ^ 43))
      (6283345379454319 / 2 ^ 40) 6283345379454319 40
      (by norm_num) (by norm_num) (by norm_num) (by norm_num)
      (by norm_num) (by norm_num) (by norm_num)
  have hss : Dbl.add (.fin (7715383759611739 / 2 ^ 41)) (.fin (6283345379454319 / 2 ^ 40)) =
      .fin (2535259314815047 / 2 ^ 38) :=
    rnd_cert ((7715383759611739 / 2 ^ 41) + (6283345379454319 / 2 ^ 40))
      (2535259314815047 / 2 ^ 38) 5070518629630094 39
      (by norm_num) (by norm_num) (by norm_num) (by norm_num)
      (by norm_num) (by norm_num) (by norm_num)
  have hD : Dbl.sqrt (.fin (2535259314815047 / 2 ^ 38)) = .fin (6758044955603247 / 2 ^ 46) := by
    rw [sqrt_fin _ (by norm_num)]
    exact rnd_sqrt_cert (2535259314815047 / 2 ^ 38)
        (6758044955603247 / 2 ^ 46) 6758044955603247 46
        (by norm_num) (by norm_num) (by norm_num) (by norm_num)
        (by norm_num) (by norm_num) (by norm_num) (by norm_num)
  exact distance_eval overshoot _ _ _ _ _ _ hdx hdy hxx hyy hss hD

/-- The distance `move` computes for `nearMiss` is one spacing above its speed. -/
theorem nearMiss_distance : nearMiss.distance = .fin (3677702274906187 / 2 ^ 45) := by
  have hdx : Dbl.sub (.fin (806193031010593 / 2 ^ 43)) (.fin 0) =
      .fin (806193031010593 / 2 ^ 43) :=
    rnd_cert ((806193031010593 / 2 ^ 43) - 0)
      (806193031010593 / 2 ^ 43) 6449544248084744 46
      (by norm_num) (by norm_num) (by norm_num) (by norm_num)
      (by norm_num) (by norm_num) (by norm_num)
  have hdy : Dbl.sub (.fin (7072582295992759 / 2 ^ 47)) (.fin 0) =
      .fin (7072582295992759 / 2 ^ 47) :=
    rnd_cert ((7072582295992759 / 2 ^ 47) - 0)
      (7072582295992759 / 2 ^ 47) 7072582295992759 47
      (by norm_num) (by norm_num) (by norm_num) (by norm_num)
      (by norm_num) (by norm_num) (by norm_num)
  have hxx : Dbl.mul (.fin (806193031010593 / 2 ^ 43)) (.fin (806193031010593 / 2 ^ 43)) =
      .fin (4618152638969143 / 2 ^ 39) :=
    rnd_cert ((806193031010593 / 2 ^ 43) * (806193031010593 / 2 ^ 43))
      (4618152638969143 / 2 ^ 39) 4618152638969143 39
      (by norm_num) (by norm_num) (by norm_num) (by norm_num)
      (by norm_num) (by norm_num) (by norm_num)
  have hyy : Dbl.mul (.fin (7072582295992759 / 2 ^ 47)) (.fin (7072582295992759 / 2 ^ 47)) =
      .fin (5553493257880483 / 2 ^ 41) :=
    rnd_cert ((7072582295992759 / 2 ^ 47) * (7072582295992759 / 2 ^ 47))
      (5553493257880483 / 2 ^ 41) 5553493257880483 41
      (by norm_num) (by norm_num) (by norm_num) (by norm_num)
      (by norm_num) (by norm_num) (by norm_num)
  have hss : Dbl.add (.fin (4618152638969143 / 2 ^ 39)) (.fin (5553493257880483 / 2 ^ 41)) =
      .fin (187703936044977 / 2 ^ 34) :=
    rnd_cert ((4618152638969143 / 2 ^ 39) + (5553493257880483 / 2 ^ 41))
      (187703936044977 / 2 ^ 34) 6006525953439264 39
      (by norm_num) (by norm_num) (by norm_num) (by norm_num)
      (by norm_num) (by norm_num) (by norm_num)
  have hD : Dbl.sqrt (.fin (187703936044977 / 2 ^ 34)) = .fin (3677702274906187 / 2 ^ 45) := by
    rw [sqrt_fin _ (by norm_num)]
    exact rnd_sqrt_cert (187703936044977 / 2 ^ 34)
        (3677702274906187 / 2 ^ 45) 7355404549812374 46
        (by norm_num) (by norm_num) (by norm_num) (by norm_num)
        (by norm_num) (by norm_num) (by norm_num) (by norm_num)
  exact distance_eval nearMiss _ _ _ _ _ _ hdx hdy hxx hyy hss hD

theorem lt_false_iff_le (a c : Dbl) (ha : a.isNaN = false) (hc : c.isNaN = false) :
    Dbl.lt a c = false ↔ Dbl.le c a = true := by
  cases a <;> cases c <;> simp [Dbl.lt, Dbl.le, Dbl.isNaN] at ha hc ⊢

theorem not_le_cases (d s : Dbl) (hs : Dbl.le (.fin 0) s = true) (h : Dbl.le d s = false) :
    d ≠ .fin 0 ∧ (d = .nan ∨ (Dbl.lt s d = true ∧ Dbl.lt (.fin 0) d = true)) := by
  cases d with
  | nan => exact ⟨by simp, Or.inl rfl⟩
  | pinf =>
    cases s with
    | nan => simp [Dbl.le] at hs
    | pinf => simp [Dbl.le] at h
    | ninf => simp [Dbl.le] at hs
    | fin b => exact ⟨by simp, Or.inr ⟨rfl, rfl⟩⟩
  | ninf =>
    cases s with
    | nan => simp [Dbl.le] at hs
    | pinf => simp [Dbl.le] at h
    | ninf => simp [Dbl.le] at hs
    | fin b => simp [Dbl.le] at h
  | fin a =>
    cases s with
    | nan => simp [Dbl.le] at hs
    | pinf => simp [Dbl.le] at h
    | ninf => simp [Dbl.le] at hs
    | fin b =>
      simp only [Dbl.le, decide_eq_true_eq, decide_eq_false_iff_not, not_le] at hs h
      refine ⟨?_, Or.inr ⟨?_, ?_⟩⟩
      · intro h0
        injection h0 with h0
        linarith
      · simp only [Dbl.lt, decide_eq_true_eq]; exact h
      · simp only [Dbl.lt, decide_eq_true_eq]; linarith

/-! ### The constructor in doubles -/

theorem hundred : (100.0 : ℝ) = 100 := by norm_num

/-- The rectangle test of the constructor, as the claim words it. -/
theorem outside_iff (sx sy : Dbl) (hx : sx.isNaN = false) (hy : sy.isNaN = false) :
    (Dbl.lt sx (.fin 0) || Dbl.lt SIM_WIDTH sx || Dbl.lt sy (.fin 0) ||
        Dbl.lt SIM_HEIGHT sy) = true ↔
      ¬ (Dbl.le (.fin 0) sx = true ∧ Dbl.le sx (.fin 100) = true ∧
        Dbl.le (.fin 0) sy = true ∧ Dbl.le sy (.fin 100) = true) := by
  have h1 := lt_false_iff_le sx (.fin 0) hx rfl
  have h2 := lt_false_iff_le (.fin 100) sx rfl hx
  have h3 := lt_false_iff_le sy (.fin 0) hy rfl
  have h4 := lt_false_iff_le (.fin 100) sy rfl hy
  simp only [SIM_WIDTH, SIM_HEIGHT, hundred]
  rw [← h1, ← h2, ← h3, ← h4]
  cases Dbl.lt sx (.fin 0) <;> cases Dbl.lt (.fin 100) sx <;> cases Dbl.lt sy (.fin 0) <;>
    cases Dbl.lt (.fin 100) sy <;> simp

theorem new_physics (startX startY v : Dbl) (name : String) (tx0 ty0 : Dbl)
    (hv : Dbl.lt v (.fin 0) = true) :
    Entity.new startX startY v name tx0 ty0 = .error (.physicsParameter "Speed" v) := by
  simp only [Entity.new, hv, if_true]

theorem new_outOfBounds (startX startY v : Dbl) (name : String) (tx0 ty0 : Dbl)
    (hv : Dbl.lt v (.fin 0) = false)
    (hout : (Dbl.lt startX (.fin 0) || Dbl.lt SIM_WIDTH startX || Dbl.lt startY (.fin 0) ||
      Dbl.lt SIM_HEIGHT startY) = true) :
    Entity.new startX startY v name tx0 ty0 = .error (.outOfBounds startX startY) := by
  simp only [Entity.new, hv, hout, if_true, Bool.false_eq_true, if_false]

theorem new_ok (startX startY v : Dbl) (name : String) (tx0 ty0 : Dbl)
    (hv : Dbl.lt v (.fin 0) = false)
    (hin : (Dbl.lt startX (.fin 0) || Dbl.lt SIM_WIDTH startX || Dbl.lt startY (.fin 0) ||
      Dbl.lt SIM_HEIGHT startY) = false) :
    Entity.new startX startY v name tx0 ty0 =
      .ok { x := startX, y := startY, targetX := tx0, targetY := ty0, speed := v,
            isMoving := true, displayName := name, lastThreadID := "Main" } := by
  simp only [Entity.new, hv, hin, Bool.false_eq_true, if_false]

/-- C7, as stated, fails for NaN arguments, which pass every comparison of the
constructor: a NaN start coordinate with speed 8 is not inside [0,100] x [0,100] and yet
the construction succeeds, and start (150,10) with a NaN speed, which is not `>= 0`, gives
the out-of-bounds error. -/
theorem nan_passes_constructor :
    (Dbl.le (.fin 0) (.fin 8) = true ∧
      ¬ (Dbl.le (.fin 0) .nan = true ∧ Dbl.le .nan (.fin 100) = true ∧
        Dbl.le (.fin 0) (.fin 10) = true ∧ Dbl.le (.fin 10) (.fin 100) = true) ∧
      Entity.new .nan (.fin 10) (.fin 8) "Legal Entity" (.fin 0) (.fin 0) =
        .ok { x := .nan, y := .fin 10, targetX := .fin 0, targetY := .fin 0, speed := .fin 8,
              isMoving := true, displayName := "Legal Entity", lastThreadID := "Main" }) ∧
    (Dbl.le (.fin 0) .nan = false ∧ Dbl.lt .nan (.fin 0) = false ∧
      Entity.new (.fin 150) (.fin 10) .nan "Legal Entity" (.fin 0) (.fin 0) =
        .error (.outOfBounds (.fin 150) (.fin 10))) := by
  refine ⟨⟨by simp [Dbl.le], by simp [Dbl.le], ?_⟩, rfl, rfl, ?_⟩
  · apply new_ok
    · simp [Dbl.lt]
    · simp only [Dbl.lt, SIM_WIDTH, SIM_HEIGHT, hundred]
      norm_num
  · apply new_outOfBounds
    · rfl
    · simp only [Dbl.lt, SIM_WIDTH, SIM_HEIGHT, hundred]
      norm_num

/-- C7 (amended): for arguments none of which is NaN, the constructor fails with the
physics error exactly when the speed is `< 0` (whatever the start), fails with the
out-of-bounds error exactly when the speed is `>= 0` and the start is outside
[0,100] x [0,100], and succeeds in every other case, so also for starts on the boundary;
speed -1 gives the physics error for every start, and start (150,10) with a speed `>= 0`
gives the out-of-bounds error. -/
theorem constructor_outcomes_numbers :
    (∀ (startX startY v : Dbl) (name : String) (tx0 ty0 : Dbl),
      v.isNaN = false → startX.isNaN = false → startY.isNaN = false →
      (Entity.new startX startY v name tx0 ty0 = .error (.physicsParameter "Speed" v) ↔
        Dbl.lt v (.fin 0) = true) ∧
      ((∃ p val, Entity.new startX startY v name tx0 ty0 = .error (.physicsParameter p val)) ↔
        Dbl.lt v (.fin 0) = true) ∧
      (Entity.new startX startY v name tx0 ty0 = .error (.outOfBounds startX startY) ↔
        Dbl.le (.fin 0) v = true ∧
          ¬ (Dbl.le (.fin 0) startX = true ∧ Dbl.le startX (.fin 100) = true ∧
            Dbl.le (.fin 0) startY = true ∧ Dbl.le startY (.fin 100) = true)) ∧
      ((∃ a b, Entity.new startX startY v name tx0 ty0 = .error (.outOfBounds a b)) ↔
        Dbl.le (.fin 0) v = true ∧
          ¬ (Dbl.le (.fin 0) startX = true ∧ Dbl.le startX (.fin 100) = true ∧
            Dbl.le (.fin 0) startY = true ∧ Dbl.le startY (.fin 100) = true)) ∧
      ((∃ e, Entity.new startX startY v name tx0 ty0 = .ok e) ↔
        Dbl.le (.fin 0) v = true ∧ Dbl.le (.fin 0) startX = true ∧
          Dbl.le startX (.fin 100) = true ∧ Dbl.le (.fin 0) startY = true ∧
          Dbl.le startY (.fin 100) = true)) ∧
    (SIM_WIDTH = .fin 100 ∧ SIM_HEIGHT = .fin 100) ∧
    (∀ (startX startY : Dbl) (name : String) (tx0 ty0 : Dbl),
      Entity.new startX startY (.fin (-1)) name tx0 ty0 =
        .error (.physicsParameter "Speed" (.fin (-1)))) ∧
    (∀ (v : Dbl) (name : String) (tx0 ty0 : Dbl), Dbl.le (.fin 0) v = true →
      Entity.new (.fin 150) (.fin 10) v name tx0 ty0 =
        .error (.outOfBounds (.fin 150) (.fin 10))) ∧
    (∀ (v : Dbl) (name : String) (tx0 ty0 : Dbl), Dbl.le (.fin 0) v = true →
      (∃ e, Entity.new (.fin 0) (.fin 0) v name tx0 ty0 = .ok e) ∧
      (∃ e, Entity.new (.fin 100) (.fin 100) v name tx0 ty0 = .ok e) ∧
      (∃ e, Entity.new (.fin 0) (.fin 100) v name tx0 ty0 = .ok e) ∧
      (∃ e, Entity.new (.fin 100) (.fin 0) v name tx0 ty0 = .ok e)) := by
  have general : ∀ (startX startY v : Dbl) (name : String) (tx0 ty0 : Dbl),
      v.isNaN = false → startX.isNaN = false → startY.isNaN = false →
      (Entity.new startX startY v name tx0 ty0 = .error (.physicsParameter "Speed" v) ↔
        Dbl.lt v (.fin 0) = true) ∧
      ((∃ p val, Entity.new startX startY v name tx0 ty0 = .error (.physicsParameter p val)) ↔
        Dbl.lt v (.fin 0) = true) ∧
      (Entity.new startX startY v name tx0 ty0 = .error (.outOfBounds startX startY) ↔
        Dbl.le (.fin 0) v = true ∧
          ¬ (Dbl.le (.fin 0) startX = true ∧ Dbl.le startX (.fin 100) = true ∧
            Dbl.le (.fin 0) startY = true ∧ Dbl.le startY (.fin 100) = true)) ∧
      ((∃ a b, Entity.new startX startY v name tx0 ty0 = .error (.outOfBounds a b)) ↔
        Dbl.le (.fin 0) v = true ∧
          ¬ (Dbl.le (.fin 0) startX = true ∧ Dbl.le startX (.fin 100) = true ∧
            Dbl.le (.fin 0) startY = true ∧ Dbl.le startY (.fin 100) = true)) ∧
      ((∃ e, Entity.new startX startY v name tx0 ty0 = .ok e) ↔
        Dbl.le (.fin 0) v = true ∧ Dbl.le (.fin 0) startX = true ∧
          Dbl.le startX (.fin 100) = true ∧ Dbl.le (.fin 0) startY = true ∧
          Dbl.le startY (.fin 100) = true) := by
    intro startX startY v name tx0 ty0 hv hx hy
    have hvle := lt_false_iff_le v (.fin 0) hv rfl
    have hout := outside_iff startX startY hx hy
    cases hlt : Dbl.lt v (.fin 0) with
    | true =>
      have hnle : ¬ Dbl.le (.fin 0) v = true := by
        intro h
        rw [← hvle, hlt] at h
        exact Bool.noConfusion h
      rw [new_physics startX startY v name tx0 ty0 hlt]
      simp [hnle]
    | false =>
      have hle : Dbl.le (.fin 0) v = true := hvle.mp hlt
      cases hb : (Dbl.lt startX (.fin 0) || Dbl.lt SIM_WIDTH startX ||
          Dbl.lt startY (.fin 0) || Dbl.lt SIM_HEIGHT startY) with
      | true =>
        have hnin := hout.mp hb
        rw [new_outOfBounds startX startY v name tx0 ty0 hlt hb]
        simp only [hle, true_and]
        refine ⟨by simp, by simp, by simp [hnin], ?_, ?_⟩
        · simp [hnin]
        · constructor
          · rintro ⟨e, he⟩
            exact Except.noConfusion he
          · intro h
            exact absurd h hnin
      | false =>
        have hin : Dbl.le (.fin 0) startX = true ∧ Dbl.le startX (.fin 100) = true ∧
            Dbl.le (.fin 0) startY = true ∧ Dbl.le startY (.fin 100) = true := by
          by_contra hcon
          have := hout.mpr hcon
          rw [hb] at this
          exact Bool.noConfusion this
        rw [new_ok startX startY v name tx0 ty0 hlt hb]
        simp only [hle, true_and]
        refine ⟨by simp, by simp, by simp [hin], by simp [hin], ?_⟩
        exact ⟨fun _ => hin, fun _ => ⟨_, rfl⟩⟩
  refine ⟨general, ⟨by simp [SIM_WIDTH, hundred], by simp [SIM_HEIGHT, hundred]⟩, ?_, ?_, ?_⟩
  · intro startX startY name tx0 ty0
    apply new_physics
    simp [Dbl.lt]
  · intro v name tx0 ty0 hv
    have hnan : v.isNaN = false := by
      cases v <;> simp [Dbl.le, Dbl.isNaN] at hv ⊢
    exact ((general (.fin 150) (.fin 10) v name tx0 ty0 hnan rfl rfl).2.2.1).mpr
      ⟨hv, by simp [Dbl.le]; norm_num⟩
  · intro v name tx0 ty0 hv
    have hnan : v.isNaN = false := by
      cases v <;> simp [Dbl.le, Dbl.isNaN] at hv ⊢
    refine ⟨?_, ?_, ?_, ?_⟩
    · exact ((general (.fin 0) (.fin 0) v name tx0 ty0 hnan rfl rfl).2.2.2.2).mpr
        ⟨hv, by simp [Dbl.le]⟩
    · exact ((general (.fin 100) (.fin 100) v name tx0 ty0 hnan rfl rfl).2.2.2.2).mpr
        ⟨hv, by simp [Dbl.le]⟩
    · exact ((general (.fin 0) (.fin 100) v name tx0 ty0 hnan rfl rfl).2.2.2.2).mpr
        ⟨hv, by simp [Dbl.le]⟩
    · exact ((general (.fin 100) (.fin 0) v name tx0 ty0 hnan rfl rfl).2.2.2.2).mpr
        ⟨hv, by simp [Dbl.le]⟩

theorem constructor_outcomes_numbers_witness :
    Dbl.le (.fin 0) (.fin 8) = true ∧
      Entity.new (.fin 150) (.fin 10) (.fin 8) "Legal Entity" (.fin 0) (.fin 0) =
        .error (.outOfBounds (.fin 150) (.fin 10)) :=
  ⟨by simp [Dbl.le],
    constructor_outcomes_numbers.2.2.2.1 (.fin 8) "Legal Entity" (.fin 0) (.fin 0)
      (by simp [Dbl.le])⟩

/-! ### The division in doubles -/

theorem moveBranch_cases (e : Entity) :
    (e.moveBranch = .returned ↔ e.isMoving = false) ∧
      (e.moveBranch = .snapped ↔ e.isMoving = true ∧ Dbl.le e.distance e.speed = true) ∧
      (∀ d, e.moveBranch = .divided d ↔
        e.isMoving = true ∧ Dbl.le e.distance e.speed = false ∧ d = e.distance) := by
  cases hm : e.isMoving with
  | false => simp [Entity.moveBranch, hm]
  | true =>
    cases hle : Dbl.le e.distance e.speed with
    | true =>
      have hle' := hle
      unfold Entity.distance at hle'
      simp [Entity.moveBranch, hm, hle']
    | false =>
      have hle' := hle
      unfold Entity.distance at hle'
      simp only [Entity.moveBranch, hm, hle', Entity.distance, Bool.not_true,
        Bool.false_eq_true, if_false, reduceCtorEq, false_iff, not_false_eq_true, and_self,
        MoveBranch.divided.injEq, true_and, not_true_eq_false, and_false]
      exact fun d => eq_comm

theorem move_divided (tid : String) (e : Entity) (hm : e.isMoving = true)
    (hle : Dbl.le e.distance e.speed = false) :
    e.move tid =
      { e with lastThreadID := tid,
               x := Dbl.add e.x (Dbl.mul (Dbl.sub e.targetX e.x) (Dbl.div e.speed e.distance)),
               y := Dbl.add e.y
                 (Dbl.mul (Dbl.sub e.targetY e.y) (Dbl.div e.speed e.distance)) } := by
  have hle' := hle
  unfold Entity.distance at hle'
  simp [Entity.move, hm, hle', Entity.distance]

theorem move_snapped (tid : String) (e : Entity) (hm : e.isMoving = true)
    (hle : Dbl.le e.distance e.speed = true) :
    e.move tid =
      { e with lastThreadID := tid, x := e.targetX, y := e.targetY, isMoving := false } := by
  have hle' := hle
  unfold Entity.distance at hle'
  simp [Entity.move, hm, hle']

/-- The computed distance of an entity with finite coordinates that stands on its target
is 0. -/
theorem distance_on_target (e : Entity) (a b : ℝ) (hx : e.x = .fin a)
    (htx : e.targetX = .fin a) (hy : e.y = .fin b) (hty : e.targetY = .fin b) :
    e.distance = .fin 0 := by
  simp only [Entity.distance, hx, htx, hy, hty, Dbl.sub, sub_self, rnd_zero, Dbl.mul,
    mul_zero, Dbl.add, add_zero]
  rw [sqrt_fin 0 (le_refl 0), Real.sqrt_zero, rnd_zero]

theorem nanStart_distance : nanStart.distance = .nan := by
  simp [Entity.distance, nanStart, Dbl.sub, Dbl.mul, Dbl.add, Dbl.sqrt]

theorem nanStart_branch : nanStart.moveBranch = .divided .nan := by
  rw [(moveBranch_cases nanStart).2.2, nanStart_distance]
  exact ⟨rfl, rfl, rfl⟩

theorem nanStart_built :
    LegalEntity.new .nan (.fin 10) (.fin 8) nanStartDraw = .ok nanStart := by
  have h := new_ok .nan (.fin 10) (.fin 8) "Legal Entity" (.fin 0) (.fin 0)
    (by simp [Dbl.lt]) (by simp only [Dbl.lt, SIM_WIDTH, SIM_HEIGHT, hundred]; norm_num)
  simp only [LegalEntity.new, nanStartDraw, h, isInRect, Dbl.le, Bool.false_and,
    Bool.and_false, Bool.false_eq_true, if_false]
  rfl

/-- C17, as stated, fails for a NaN coordinate: `LegalEntity(NaN, 10, 8)` is constructed
movement-active with speed 8 `>= 0`, its call of `move` takes the branch that divides, and
the divisor `distance` is NaN, which is not `> speed`.  A NaN speed also passes the
constructor, so the constructor does not ensure `speed >= 0`. -/
theorem nan_start_divides :
    (LegalEntity.new .nan (.fin 10) (.fin 8) nanStartDraw = .ok nanStart ∧
      nanStart.isMoving = true ∧ Dbl.le (.fin 0) nanStart.speed = true ∧
      nanStart.moveBranch = .divided .nan ∧ Dbl.lt nanStart.speed .nan = false) ∧
    (∃ e, Entity.new (.fin 10) (.fin 10) .nan "Legal Entity" (.fin 0) (.fin 0) = .ok e ∧
      Dbl.le (.fin 0) e.speed = false) := by
  refine ⟨⟨nanStart_built, rfl, by simp [Dbl.le, nanStart], ?_, rfl⟩, ?_⟩
  · exact nanStart_branch
  · refine ⟨_, new_ok _ _ _ _ _ _ rfl ?_, rfl⟩
    simp only [Dbl.lt, SIM_WIDTH, SIM_HEIGHT, hundred]
    norm_num

/-- C17 (amended): for a speed `>= 0`, whenever a call of `move` takes the branch that
computes `speed / distance`, the divisor is the computed distance, it is not `<= speed`,
so it is either NaN or `> speed >= 0` and hence `> 0`, and in no case zero; the new
position is computed with that quotient.  An entity with finite coordinates that stands
exactly on its target has computed distance 0, returns early or takes the arrival branch,
and never divides. -/
theorem division_divisor_not_zero :
    (∀ (e : Entity), Dbl.le (.fin 0) e.speed = true →
      ∀ d, e.moveBranch = .divided d →
        d = e.distance ∧ Dbl.le d e.speed = false ∧ d ≠ .fin 0 ∧
        (d = .nan ∨ (Dbl.lt e.speed d = true ∧ Dbl.lt (.fin 0) d = true)) ∧
        ∀ tid, (e.move tid).x =
            Dbl.add e.x (Dbl.mul (Dbl.sub e.targetX e.x) (Dbl.div e.speed d)) ∧
          (e.move tid).y =
            Dbl.add e.y (Dbl.mul (Dbl.sub e.targetY e.y) (Dbl.div e.speed d))) ∧
    (∀ (e : Entity) (a b : ℝ), Dbl.le (.fin 0) e.speed = true →
      e.x = .fin a → e.targetX = .fin a → e.y = .fin b → e.targetY = .fin b →
        e.distance = .fin 0 ∧ (e.isMoving = false → e.moveBranch = .returned) ∧
        (e.isMoving = true → e.moveBranch = .snapped) ∧
        ∀ d, e.moveBranch ≠ .divided d) ∧
    (∀ (e : Entity), (e.moveBranch = .returned ↔ e.isMoving = false) ∧
      (e.moveBranch = .snapped ↔ e.isMoving = true ∧ Dbl.le e.distance e.speed = true) ∧
      (∀ d, e.moveBranch = .divided d ↔
        e.isMoving = true ∧ Dbl.le e.distance e.speed = false ∧ d = e.distance)) := by
  refine ⟨?_, ?_, moveBranch_cases⟩
  · intro e hs d hd
    obtain ⟨hm, hle, hdist⟩ := ((moveBranch_cases e).2.2 d).mp hd
    have hle' : Dbl.le d e.speed = false := by rw [hdist]; exact hle
    obtain ⟨h0, hcase⟩ := not_le_cases d e.speed hs hle'
    refine ⟨hdist, hle', h0, hcase, ?_⟩
    intro tid
    rw [move_divided tid e hm hle, hdist]
    exact ⟨rfl, rfl⟩
  · intro e a b hs hx htx hy hty
    have h0 := distance_on_target e a b hx htx hy hty
    have hle : Dbl.le e.distance e.speed = true := by rw [h0]; exact hs
    refine ⟨h0, fun hm => (moveBranch_cases e).1.mpr hm,
      fun hm => (moveBranch_cases e).2.1.mpr ⟨hm, hle⟩, ?_⟩
    intro d hd
    have := (((moveBranch_cases e).2.2 d).mp hd).2.1
    rw [hle] at this
    exact Bool.noConfusion this

theorem division_divisor_not_zero_witness :
    Dbl.le (.fin 0) nanStart.speed = true ∧ nanStart.moveBranch = .divided .nan ∧
      (.nan : Dbl) ≠ .fin 0 :=
  have hs : Dbl.le (.fin 0) nanStart.speed = true := by simp [Dbl.le, nanStart]
  have hb : nanStart.moveBranch = .divided .nan := nanStart_branch
  ⟨hs, hb, (division_divisor_not_zero.1 nanStart hs .nan hb).2.2.1⟩

/-! ### Arrival in doubles -/

/-- C3 (amended): a movement-active entity whose distance to the target as `move` computes
it, the rounded `sqrt(dx * dx + dy * dy)`, is `<= speed` is put exactly on its target by
one call of `move`, and the same call clears the movement-active flag; with a finite
target the distance computed afterwards is 0. -/
theorem move_snaps_when_computed_within_reach (tid : String) (e : Entity)
    (hm : e.isMoving = true) (hd : Dbl.le e.distance e.speed = true) :
    (e.move tid).x = e.targetX ∧ (e.move tid).y = e.targetY ∧
      (e.move tid).targetX = e.targetX ∧ (e.move tid).targetY = e.targetY ∧
      (e.move tid).isMoving = false ∧
      (∀ a b : ℝ, e.targetX = .fin a → e.targetY = .fin b →
        (e.move tid).distance = .fin 0) := by
  rw [move_snapped tid e hm hd]
  refine ⟨rfl, rfl, rfl, rfl, rfl, ?_⟩
  intro a b ha hb
  exact distance_on_target _ a b ha ha hb hb

theorem move_snaps_when_computed_within_reach_witness :
    overshoot.isMoving = true ∧ Dbl.le overshoot.distance overshoot.speed = true ∧
      (overshoot.move "2").x = overshoot.targetX ∧
      (overshoot.move "2").y = overshoot.targetY ∧
      (overshoot.move "2").isMoving = false :=
  have hd : Dbl.le overshoot.distance overshoot.speed = true := by
    rw [overshoot_distance]
    simp [Dbl.le, overshoot]
  have h := move_snaps_when_computed_within_reach "2" overshoot rfl hd
  ⟨rfl, hd, h.1, h.2.1, h.2.2.2.2.1⟩

/-! ### Construction of the concrete states -/

theorem half_width_d : Dbl.div SIM_WIDTH (.fin 2.0) = .fin 50 := by
  have h2 : (2.0 : ℝ) = 2 := by norm_num
  simp only [SIM_WIDTH, hundred, h2]
  rw [div_fin _ _ (by norm_num)]
  exact rnd_cert (100 / 2) 50 7036874417766400 47 (by norm_num) (by norm_num) (by norm_num)
    (by norm_num) (by norm_num) (by norm_num) (by norm_num)

theorem half_height_d : Dbl.div SIM_HEIGHT (.fin 2.0) = .fin 50 := half_width_d

/-- `PhysicalEntity(x, x, v)` for a start `0 <= x < 50` on the diagonal and a speed that is
not `< 0`: the start is in the plane and outside the zone, so the entity is built
movement-active with the drawn target. -/
theorem physical_from_diagonal (a : ℝ) (ha0 : 0 ≤ a) (ha : a < 50) (v : Dbl) (d : Draw)
    (hv : Dbl.lt v (.fin 0) = false) :
    PhysicalEntity.new (.fin a) (.fin a) v d =
      .ok { x := .fin a, y := .fin a, targetX := d.randX, targetY := d.randY, speed := v,
            isMoving := true, displayName := "Physical Entity", lastThreadID := "Main" } := by
  have hin : (Dbl.lt (.fin a) (.fin 0) || Dbl.lt SIM_WIDTH (.fin a) ||
      Dbl.lt (.fin a) (.fin 0) || Dbl.lt SIM_HEIGHT (.fin a)) = false := by
    simp only [Dbl.lt, SIM_WIDTH, SIM_HEIGHT, hundred, Bool.or_eq_false_iff,
      decide_eq_false_iff_not, not_lt]
    exact ⟨⟨⟨ha0, by linarith⟩, ha0⟩, by linarith⟩
  have hrect : isInRect (.fin a) (.fin a) (.fin 50) SIM_WIDTH (.fin 50) SIM_HEIGHT = false := by
    simp only [isInRect, Dbl.le, Bool.and_eq_false_iff, decide_eq_false_iff_not, not_le]
    exact Or.inl (Or.inl (Or.inl ha))
  simp only [PhysicalEntity.new, new_ok _ _ v "Physical Entity" d.tx0 d.ty0 hv hin,
    half_width_d, half_height_d, hrect, Bool.false_eq_true, if_false]

theorem physical_from_origin (v : Dbl) (d : Draw) (hv : Dbl.lt v (.fin 0) = false) :
    PhysicalEntity.new (.fin 0) (.fin 0) v d =
      .ok { x := .fin 0, y := .fin 0, targetX := d.randX, targetY := d.randY, speed := v,
            isMoving := true, displayName := "Physical Entity", lastThreadID := "Main" } :=
  physical_from_diagonal 0 (le_refl 0) (by norm_num) v d hv

/-! ### Concrete double states -/

theorem nearMiss_doubles :
    nearMiss.x.IsDouble ∧ nearMiss.y.IsDouble ∧ nearMiss.targetX.IsDouble ∧
      nearMiss.targetY.IsDouble ∧ nearMiss.speed.IsDouble :=
  ⟨rnd_zero, rnd_zero,
    rnd_cert (806193031010593 / 2 ^ 43) (806193031010593 / 2 ^ 43) 6449544248084744 46
      (by norm_num) (by norm_num) (by norm_num) (by norm_num) (by norm_num) (by norm_num)
      (by norm_num),
    rnd_cert (7072582295992759 / 2 ^ 47) (7072582295992759 / 2 ^ 47) 7072582295992759 47
      (by norm_num) (by norm_num) (by norm_num) (by norm_num) (by norm_num) (by norm_num)
      (by norm_num),
    rnd_cert (7355404549812373 / 2 ^ 46) (7355404549812373 / 2 ^ 46) 7355404549812373 46
      (by norm_num) (by norm_num) (by norm_num) (by norm_num) (by norm_num) (by norm_num)
      (by norm_num)⟩

theorem nearMiss_exact :
    0 < nearMiss.exactDistance ∧ nearMiss.exactDistance ≤ nearMiss.speed.val := by
  have h : nearMiss.exactDistance =
      Real.sqrt ((806193031010593 / 2 ^ 43) * (806193031010593 / 2 ^ 43) +
        (7072582295992759 / 2 ^ 47) * (7072582295992759 / 2 ^ 47)) := by
    simp only [Entity.exactDistance, nearMiss, Dbl.val, sub_zero]
  rw [h]
  constructor
  · rw [Real.sqrt_pos]
    norm_num
  · show _ ≤ (7355404549812373 / 2 ^ 46 : ℝ)
    rw [Real.sqrt_le_left (by norm_num)]
    norm_num

theorem nearMiss_built :
    PhysicalEntity.new (.fin 0) (.fin 0) nearMiss.speed nearMissDraw = .ok nearMiss :=
  physical_from_origin nearMiss.speed nearMissDraw (by simp [Dbl.lt, nearMiss]; norm_num)

theorem nearMiss_not_within : Dbl.le nearMiss.distance nearMiss.speed = false := by
  rw [nearMiss_distance]
  simp only [Dbl.le, nearMiss, decide_eq_false_iff_not, not_le]
  norm_num

theorem nearMiss_move (tid : String) : (nearMiss.move tid).isMoving = true := by
  rw [move_divided tid nearMiss rfl nearMiss_not_within]
  rfl

/-- C3, as stated, fails in double arithmetic: the entity at (0,0) with target
(91.65353628879905, 50.253719734831456) and speed 104.52658542891943, all doubles, has an
exact distance to the target that is `<= speed`, but the distance `move` computes is one
spacing above the speed, so the call advances and leaves the flag set. -/
theorem exact_reach_not_computed :
    PhysicalEntity.new (.fin 0) (.fin 0) nearMiss.speed nearMissDraw = .ok nearMiss ∧
      nearMiss.isMoving = true ∧
      (nearMiss.x.IsDouble ∧ nearMiss.y.IsDouble ∧ nearMiss.targetX.IsDouble ∧
        nearMiss.targetY.IsDouble ∧ nearMiss.speed.IsDouble) ∧
      nearMiss.exactDistance ≤ nearMiss.speed.val ∧
      Dbl.le nearMiss.distance nearMiss.speed = false ∧
      (nearMiss.move "2").isMoving = true :=
  ⟨nearMiss_built, rfl, nearMiss_doubles, nearMiss_exact.2, nearMiss_not_within,
    nearMiss_move "2"⟩

end Ieee

end Sim

end
